import Mathlib

/-!
# Burgers equation solver (`Burger.cc`): a shallow embedding

The development follows `src/Burger.cc`.  The simulation time and the forcing
function are computed in binary64 arithmetic (`Double` below), as the source
computes them in `double`.  The local assembly, whose claims are algebraic
identities between sums of products, is stated over exact rationals `ℚ`.
The `unsigned int` counters are natural numbers reduced modulo `2 ^ 32` where
the source increments them.

Definitions come first, theorems afterwards.
-/

namespace BurgersEquation

/-! ## Binary64 arithmetic -/

/-- A value of the C++ type `double` (IEEE 754 binary64): a finite number, given by its exact
rational value, an infinity or a NaN; the two zeros are not told apart.  Each operation
below rounds its exact result once, to the nearest binary64 number, ties to even, so that
every value the program computes is a binary64 number. -/
inductive Double where
  | finite (val : ℚ)
  | pos_inf
  | neg_inf
  | nan
deriving DecidableEq

/-- The binary logarithm of `n`, rounded down, by at most `fuel` halvings. -/
def log2_fuel : Nat → Nat → Nat
  | 0, _ => 0
  | fuel + 1, n => if n < 2 then 0 else log2_fuel fuel (n / 2) + 1

/-- The binary logarithm of a positive `n`, rounded down. -/
def log2 (n : Nat) : Nat :=
  log2_fuel n n

/-- The binary logarithm of `n / d`, rounded down, for positive `n` and `d`. -/
def floor_log2 (n d : Nat) : Int :=
  let e0 : Int := (log2 n : Int) - (log2 d : Int)
  if 0 ≤ e0 then
    if d * 2 ^ e0.toNat ≤ n then e0 else e0 - 1
  else
    if d ≤ n * 2 ^ (-e0).toNat then e0 else e0 - 1

/-- The binary64 number nearest to the positive rational `n / d`, ties to even; `none` when
the rounded value is not below `2 ^ 1024` (overflow).  The unit in the last place is
`2 ^ (e - 52)`, where `e` is the binary exponent of `n / d` and at least `-1022`
(below that the numbers are subnormal). -/
def round_magnitude (n d : Nat) : Option ℚ :=
  let e : Int := max (floor_log2 n d) (-1022)
  let s : Int := e - 52
  let num : Nat := if s < 0 then n * 2 ^ (-s).toNat else n
  let den : Nat := if s < 0 then d else d * 2 ^ s.toNat
  let f : Nat := num / den
  let r : Nat := num % den
  let m : Nat :=
    if 2 * r < den then f
    else if den < 2 * r then f + 1
    else if f % 2 = 0 then f else f + 1
  if s < 0 then some ((m : ℚ) / ((2 ^ (-s).toNat : Nat) : ℚ))
  else if 2 ^ 1024 ≤ m * 2 ^ s.toNat then none
  else some ((m * 2 ^ s.toNat : Nat) : ℚ)

/-- Rounding of an exact result to binary64. -/
def Double.round (q : ℚ) : Double :=
  if q.num = 0 then Double.finite 0
  else
    match round_magnitude q.num.natAbs q.den with
    | none => if q.num < 0 then Double.neg_inf else Double.pos_inf
    | some r => Double.finite (if q.num < 0 then -r else r)

/-- The unary minus of `double`. -/
def Double.neg : Double → Double
  | .finite a => .finite (-a)
  | .pos_inf => .neg_inf
  | .neg_inf => .pos_inf
  | .nan => .nan

/-- The operator `+` of `double`. -/
def Double.add : Double → Double → Double
  | .finite a, .finite b => Double.round (a + b)
  | .nan, _ => .nan
  | _, .nan => .nan
  | .pos_inf, .neg_inf => .nan
  | .neg_inf, .pos_inf => .nan
  | .pos_inf, _ => .pos_inf
  | _, .pos_inf => .pos_inf
  | .neg_inf, _ => .neg_inf
  | _, .neg_inf => .neg_inf

/-- The operator `-` of `double`. -/
def Double.sub (a b : Double) : Double :=
  Double.add a (Double.neg b)

/-- The operator `/` of `double`; a zero divisor is taken as `+0`. -/
def Double.div : Double → Double → Double
  | .finite a, .finite b =>
    if b = 0 then
      if a = 0 then .nan else if 0 < a then .pos_inf else .neg_inf
    else Double.round (a / b)
  | .nan, _ => .nan
  | _, .nan => .nan
  | .finite _, _ => .finite 0
  | .pos_inf, .finite b => if 0 ≤ b then .pos_inf else .neg_inf
  | .neg_inf, .finite b => if 0 ≤ b then .neg_inf else .pos_inf
  | _, _ => .nan

/-- The function `std::floor` on `double`. -/
def Double.floor : Double → Double
  | .finite a => .finite (Rat.floor a)
  | x => x

/-- The operator `<=` of `double`; every comparison with a NaN is false. -/
def Double.le : Double → Double → Bool
  | .finite a, .finite b => decide (a ≤ b)
  | .nan, _ => false
  | _, .nan => false
  | .neg_inf, _ => true
  | _, .pos_inf => true
  | _, _ => false

/-- The operator `<` of `double`; every comparison with a NaN is false. -/
def Double.lt : Double → Double → Bool
  | .finite a, .finite b => decide (a < b)
  | .nan, _ => false
  | _, .nan => false
  | .pos_inf, _ => false
  | _, .neg_inf => false
  | _, _ => true

/-- The exact value of a finite `double`, and 0 for the others. -/
def Double.toRat : Double → ℚ
  | .finite a => a
  | _ => 0

/-- A decimal literal of type `double`: the binary64 number nearest to `m * 10 ^ e`, or to
`m / 10 ^ e` when `s` holds. -/
def Double.ofScientific (m : Nat) (s : Bool) (e : Nat) : Double :=
  if s then Double.round ((m : ℚ) / ((10 ^ e : Nat) : ℚ))
  else Double.round ((m * 10 ^ e : Nat) : ℚ)

instance : Neg Double := ⟨Double.neg⟩

instance : Add Double := ⟨Double.add⟩

instance : Sub Double := ⟨Double.sub⟩

instance : Div Double := ⟨Double.div⟩

instance : LE Double := ⟨fun a b => Double.le a b = true⟩

instance : LT Double := ⟨fun a b => Double.lt a b = true⟩

instance (a b : Double) : Decidable (a ≤ b) :=
  inferInstanceAs (Decidable (Double.le a b = true))

instance (a b : Double) : Decidable (a < b) :=
  inferInstanceAs (Decidable (Double.lt a b = true))

instance : OfScientific Double := ⟨Double.ofScientific⟩

instance (n : Nat) : OfNat Double n := ⟨Double.round n⟩

/-! ## Forcing function `RightHandSide<2>` -/

/-- A point of the plane, `Point<2>`; `x0` is `p[0]` and `x1` is `p[1]`. -/
structure Point where
  x0 : Double
  x1 : Double
deriving DecidableEq

/-- The data members of `RightHandSide<dim>`. -/
structure RightHandSide where
  period : Double
  time : Double
deriving DecidableEq

/-- The constructor `RightHandSide (const double& time)`: `period (0.2)`, `time(time)`. -/
def RightHandSide.new (time : Double) : RightHandSide :=
  { period := 0.2, time := time }

/-- The local `point_within_period` of `RightHandSide<dim>::value`:
`time/period - std::floor(time/period)`. -/
def RightHandSide.point_within_period (r : RightHandSide) : Double :=
  r.time / r.period - Double.floor (r.time / r.period)

/-- The member `RightHandSide<dim>::value (p, component)`. -/
def RightHandSide.value (r : RightHandSide) (p : Point) (component : Nat) : Double :=
  let point_within_period := r.point_within_period
  match component with
  | 0 =>
    if point_within_period ≥ 0.0 ∧ point_within_period ≤ 0.2 then
      if p.x0 > 0.5 ∧ p.x1 > -0.5 then 1 else 0
    else if point_within_period ≥ 0.5 ∧ point_within_period ≤ 0.7 then
      if p.x0 > -0.5 ∧ p.x1 > 0.5 then 1 else 0
    else 0
  | 1 =>
    if point_within_period ≥ 0.2 ∧ point_within_period ≤ 0.4 then
      if p.x0 > 0.5 ∧ p.x1 > -0.5 then 1 else 0
    else if point_within_period ≥ 0.7 ∧ point_within_period ≤ 0.9 then
      if p.x0 > -0.5 ∧ p.x1 > 0.5 then 1 else 0
    else 0
  | _ => 0

/-! ## Mesh: `Triangulation<2>` with refine and coarsen flags -/

/-- A cell of a `Triangulation<2>`: either active (a leaf, carrying its refine flag and its
coarsen flag) or refined into its four children.  The level of a cell is its depth below
the coarse mesh, whose cells have level 0. -/
inductive Cell where
  | active (refine_flag coarsen_flag : Bool)
  | refined (c0 c1 c2 c3 : Cell)
deriving DecidableEq

/-- The triangulation: its coarse (level 0) cells and the value of `n_levels()`. -/
structure Triangulation where
  coarse : List Cell
  n_levels : Nat
deriving DecidableEq

/-- What an `active_cell_iterator` shows of the cell it points to. -/
structure ActiveCell where
  level : Nat
  refine_flag : Bool
  coarsen_flag : Bool
deriving DecidableEq

/-- The active cells below a cell of level `lvl`. -/
def Cell.active_cells : Nat → Cell → List ActiveCell
  | lvl, .active r c => [⟨lvl, r, c⟩]
  | lvl, .refined c0 c1 c2 c3 =>
    c0.active_cells (lvl + 1) ++ c1.active_cells (lvl + 1)
      ++ c2.active_cells (lvl + 1) ++ c3.active_cells (lvl + 1)

/-- All active cells of the triangulation. -/
def Triangulation.active_cells (t : Triangulation) : List ActiveCell :=
  t.coarse.flatMap (Cell.active_cells 0)

/-- The value of `triangulation.n_active_cells()`. -/
def Triangulation.n_active_cells (t : Triangulation) : Nat :=
  t.active_cells.length

/-- The highest level of a cell below (and including) a cell of level `lvl`. -/
def Cell.max_level : Nat → Cell → Nat
  | lvl, .active _ _ => lvl
  | lvl, .refined c0 c1 c2 c3 =>
    max (max (c0.max_level (lvl + 1)) (c1.max_level (lvl + 1)))
      (max (c2.max_level (lvl + 1)) (c3.max_level (lvl + 1)))

/-- The highest level of any cell of the triangulation. -/
def Triangulation.max_level (t : Triangulation) : Nat :=
  (t.coarse.map (Cell.max_level 0)).foldr max 0

/-- The first loop of the clamp in `refine_grid`, from `begin_active(max_grid_level)` to
`end()`: `clear_refine_flag` on every active cell whose level is at least `from_level`. -/
def Cell.clear_refine_flag_from (from_level : Nat) : Nat → Cell → Cell
  | lvl, .active r c => .active (if from_level ≤ lvl then false else r) c
  | lvl, .refined c0 c1 c2 c3 =>
    .refined (c0.clear_refine_flag_from from_level (lvl + 1))
      (c1.clear_refine_flag_from from_level (lvl + 1))
      (c2.clear_refine_flag_from from_level (lvl + 1))
      (c3.clear_refine_flag_from from_level (lvl + 1))

/-- The second loop of the clamp in `refine_grid`, from `begin_active(min_grid_level)` to
`end_active(min_grid_level)`: `clear_coarsen_flag` on every active cell of level `at_level`. -/
def Cell.clear_coarsen_flag_at (at_level : Nat) : Nat → Cell → Cell
  | lvl, .active r c => .active r (if lvl = at_level then false else c)
  | lvl, .refined c0 c1 c2 c3 =>
    .refined (c0.clear_coarsen_flag_at at_level (lvl + 1))
      (c1.clear_coarsen_flag_at at_level (lvl + 1))
      (c2.clear_coarsen_flag_at at_level (lvl + 1))
      (c3.clear_coarsen_flag_at at_level (lvl + 1))

/-- The clamp step of `refine_grid (min_grid_level, max_grid_level)`: the two loops that
follow `refine_and_coarsen_fixed_number`. -/
def clamp_flags (min_grid_level max_grid_level : Nat) (t : Triangulation) : Triangulation :=
  let t1 : Triangulation :=
    if t.n_levels > max_grid_level then
      { t with coarse := t.coarse.map (Cell.clear_refine_flag_from max_grid_level 0) }
    else t
  { t1 with coarse := t1.coarse.map (Cell.clear_coarsen_flag_at min_grid_level 0) }

/-- An active cell that asks to be coarsened and not to be refined. -/
def Cell.wants_coarsening : Cell → Bool
  | .active r c => c && !r
  | .refined _ _ _ _ => false

/-- Executing the flags below one cell: an active cell with a refine flag is replaced by
four active children, one level deeper; a cell whose four children are all active and ask
to be coarsened becomes active again; all flags are cleared. -/
def Cell.execute : Cell → Cell
  | .active r _ =>
    if r then
      .refined (.active false false) (.active false false) (.active false false)
        (.active false false)
    else .active false false
  | .refined c0 c1 c2 c3 =>
    if c0.wants_coarsening && c1.wants_coarsening && c2.wants_coarsening
        && c3.wants_coarsening then
      .active false false
    else .refined c0.execute c1.execute c2.execute c3.execute

/-- The call `triangulation.execute_coarsening_and_refinement()`. -/
def Triangulation.execute_coarsening_and_refinement (t : Triangulation) : Triangulation :=
  let coarse := t.coarse.map Cell.execute
  { coarse := coarse, n_levels := 1 + (coarse.map (Cell.max_level 0)).foldr max 0 }

/-- One global refinement of everything below a cell. -/
def Cell.refine_global : Cell → Cell
  | .active _ _ =>
    .refined (.active false false) (.active false false) (.active false false)
      (.active false false)
  | .refined c0 c1 c2 c3 =>
    .refined c0.refine_global c1.refine_global c2.refine_global c3.refine_global

/-! ## Local assembly in `assemble_system_2` -/

/-- A `Tensor<1, 2>`. -/
structure Tensor1 where
  c0 : ℚ
  c1 : ℚ
deriving DecidableEq

/-- A `Tensor<2, 2>`, by rows. -/
structure Tensor2 where
  r0 : Tensor1
  r1 : Tensor1
deriving DecidableEq

/-- The scalar product of two `Tensor<1, 2>`: `a * b` and `contract(a, b)`. -/
def Tensor1.dot (a b : Tensor1) : ℚ :=
  a.c0 * b.c0 + a.c1 * b.c1

/-- The function `contract3(a, t, b)`: the sum over `i, j` of `a[i] * t[i][j] * b[j]`. -/
def contract3 (a : Tensor1) (t : Tensor2) (b : Tensor1) : ℚ :=
  a.c0 * t.r0.c0 * b.c0 + a.c0 * t.r0.c1 * b.c1
    + a.c1 * t.r1.c0 * b.c0 + a.c1 * t.r1.c1 * b.c1

/-- The function `double_contract(s, t)`: the sum over `i, j` of `s[i][j] * t[i][j]`. -/
def double_contract (s t : Tensor2) : ℚ :=
  s.r0.c0 * t.r0.c0 + s.r0.c1 * t.r0.c1 + s.r1.c0 * t.r1.c0 + s.r1.c1 * t.r1.c1

/-- What `fe_values`, after `fe_values.reinit (cell)`, and its view
`fe_values[FEValuesExtractors::Vector(0)]` provide on one cell. -/
structure FEValues where
  dofs_per_cell : Nat
  n_q_points : Nat
  value : Nat → Nat → Tensor1
  gradient : Nat → Nat → Tensor2
  JxW : Nat → ℚ
  quadrature_point : Nat → Point

/-- The local `rhs_val` at quadrature point `q_index`: a zero tensor to which the loop over
`d` adds `right_hand_side.value(fe_values.quadrature_point(q_index), d)`; the forcing value,
which is 0 or 1, enters with its exact value. -/
def rhs_val (fe : FEValues) (right_hand_side : RightHandSide) (q_index : Nat) : Tensor1 :=
  { c0 := 0 + (right_hand_side.value (fe.quadrature_point q_index) 0).toRat
    c1 := 0 + (right_hand_side.value (fe.quadrature_point q_index) 1).toRat }

/-- Entry `i` of `cell_rhs` when the loop over the quadrature points of a cell ends: it is
set to zero and receives one `+=` for every `q_index`.  `old_values` is what
`get_function_values (old_solution, old_values)` delivered. -/
def cell_rhs (fe : FEValues) (time_step : ℚ) (time : Double) (old_values : Nat → Tensor1)
    (i : Nat) : ℚ :=
  let right_hand_side := RightHandSide.new time
  (List.range fe.n_q_points).foldl
    (fun acc q_index =>
      let u_val := fe.value i q_index
      acc + ((old_values q_index).dot u_val
              + time_step * ((rhs_val fe right_hand_side q_index).dot u_val)) * fe.JxW q_index)
    0

/-- Entry `(i, j)` of `cell_matrix` when the loop over the quadrature points of a cell ends.
`old_values` and `old_div` are what `get_function_values` and `get_function_divergences`
delivered for `old_solution`. -/
def cell_matrix (fe : FEValues) (time_step nu : ℚ) (old_values : Nat → Tensor1)
    (old_div : Nat → ℚ) (i j : Nat) : ℚ :=
  (List.range fe.n_q_points).foldl
    (fun acc q_index =>
      let u_star_div := old_div q_index
      let u_star := old_values q_index
      let u_val := fe.value i q_index
      let u_grad := fe.gradient i q_index
      let v_val := fe.value j q_index
      let v_grad := fe.gradient j q_index
      acc + (u_val.dot v_val
              + time_step * contract3 u_star u_grad v_val
              + 0.5 * time_step * u_star_div * (u_val.dot v_val)
              + nu * time_step * double_contract u_grad v_grad) * fe.JxW q_index)
    0

/-- What the view `fe_vector_values` computes on one cell from a global vector: the values,
gradients and divergences of the finite element function at the quadrature points
(`get_function_values`, `get_function_gradients`, `get_function_divergences`). -/
structure FEFunctionValues where
  get_function_values : List ℚ → Nat → Tensor1
  get_function_gradients : List ℚ → Nat → Tensor2
  get_function_divergences : List ℚ → Nat → ℚ

/-- Entry `(i, j)` of `cell_matrix` for one cell of `assemble_system_2`, from the two
history vectors: the five `get_function_...` calls, then the loop over the quadrature
points with `u_star_div = old_div[q_index]` and `u_star = old_values[q_index]`. -/
def assemble_cell_matrix (fe : FEValues) (fv : FEFunctionValues) (time_step nu : ℚ)
    (old_solution old_old_solution : List ℚ) (i j : Nat) : ℚ :=
  let old_values := fv.get_function_values old_solution
  let _old_grad := fv.get_function_gradients old_solution
  let old_div := fv.get_function_divergences old_solution
  let _old_old_values := fv.get_function_values old_old_solution
  let _old_old_div := fv.get_function_divergences old_old_solution
  cell_matrix fe time_step nu old_values old_div i j

/-! ## Time-stepping driver: the class `Burger<2>` and `Burger<2>::run` -/

/-- The places of `run` (and of the members it calls) at which the driver state is recorded:
the end of `setup_system`, the label `start_time_iteration` (after its two assignments),
the line `Time step ... at t=...` that opens the loop body, a call of `output_results`,
a call of `refine_grid`, the three `reinit` calls that follow `refine_grid`, the
`goto start_time_iteration`, and the end of the history rotation. -/
inductive Label where
  | setup_system
  | start_time_iteration
  | time_step
  | output_results
  | refine_grid
  | reinit
  | goto_start
  | rotated
deriving DecidableEq

/-- One record of the driver state: where it was taken, the counters, the unknown count
`dof_handler.n_dofs()` and the sizes of the three field buffers. -/
structure Obs where
  label : Label
  timestep_number : Nat
  time : Double
  pre_refinement_step : Nat
  n_dofs : Nat
  solution_size : Nat
  old_solution_size : Nat
  old_old_solution_size : Nat
deriving DecidableEq

/-- The data members of `Burger<2>` that the driver reads and writes, the local
`pre_refinement_step` of `run`, and the records taken so far (oldest first).  `n_dofs` is
`dof_handler.n_dofs()`. -/
structure Burger where
  triangulation : Triangulation
  n_dofs : Nat
  old_solution : List ℚ
  old_old_solution : List ℚ
  solution : List ℚ
  system_rhs : List ℚ
  timestep_number : Nat
  time_step : Double
  time : Double
  theta_imex : ℚ
  theta_skew : ℚ
  nu : ℚ
  pre_refinement_step : Nat
  trace : List Obs

/-- The services of the finite element library that `run` relies on, each as a function of
the driver state it is called in.  A service that fills a vector is given by the entry it
writes at each index. -/
structure Lib where
  /-- The unknown count after `dof_handler.distribute_dofs (fe)` on a triangulation. -/
  distribute_dofs : Triangulation → Nat
  /-- The indicators of `KellyErrorEstimator<dim>::estimate`. -/
  estimate : Burger → List ℚ
  /-- The marking of `GridRefinement::refine_and_coarsen_fixed_number` for a triangulation,
  the indicators and the two fractions. -/
  refine_and_coarsen_fixed_number : Triangulation → List ℚ → ℚ → ℚ → Triangulation
  /-- The entries written by `solution_transfer.interpolate` and `constraints.distribute`,
  for the state before the mesh change, the state after `setup_system` and the snapshot
  `previous_solution`. -/
  interpolate : Burger → Burger → List ℚ → Nat → ℚ
  /-- The entries written into `old_solution` by `VectorTools::project`. -/
  project : Burger → Nat → ℚ
  /-- The entries of the assembled global `system_rhs`. -/
  assemble : Burger → Nat → ℚ
  /-- The entries left in `solution` by the GMRES solve and `constraints.distribute`. -/
  solve : Burger → Nat → ℚ

/-- The call `v.reinit(n)`: a zero vector of size `n`. -/
def reinit (n : Nat) : List ℚ :=
  List.replicate n 0

/-- A library routine that fills the existing vector `v`: its size stays, entry `k` becomes
`entries k`. -/
def overwrite (v : List ℚ) (entries : Nat → ℚ) : List ℚ :=
  (List.range v.length).map entries

/-- The record of the current driver state under a label. -/
def Burger.record (b : Burger) (l : Label) : Obs :=
  { label := l
    timestep_number := b.timestep_number
    time := b.time
    pre_refinement_step := b.pre_refinement_step
    n_dofs := b.n_dofs
    solution_size := b.solution.length
    old_solution_size := b.old_solution.length
    old_old_solution_size := b.old_old_solution.length }

/-- Records the current driver state under a label. -/
def Burger.observe (b : Burger) (l : Label) : Burger :=
  { b with trace := b.trace ++ [b.record l] }

/-- The constructor `Burger<dim>::Burger ()`, with the in-class initialiser `nu = 1.0`. -/
def Burger.new : Burger :=
  { triangulation := { coarse := [], n_levels := 0 }
    n_dofs := 0
    old_solution := []
    old_old_solution := []
    solution := []
    system_rhs := []
    timestep_number := 0
    time_step := 1 / 500
    time := 0
    theta_imex := 0.5
    theta_skew := 0.5
    nu := 1.0
    pre_refinement_step := 0
    trace := [] }

/-- The member `make_grid`: `hyper_cube` gives one coarse cell, `refine_global (3)` refines
everything three times. -/
def make_grid (b : Burger) : Burger :=
  let coarse := [Cell.refine_global^[3] (Cell.active false false)]
  { b with triangulation :=
      { coarse := coarse, n_levels := 1 + (coarse.map (Cell.max_level 0)).foldr max 0 } }

/-- The member `setup_system`: distribute the unknowns, then `reinit` the four vectors to
`dof_handler.n_dofs()`. -/
def setup_system (lib : Lib) (b : Burger) : Burger :=
  let b := { b with n_dofs := lib.distribute_dofs b.triangulation }
  let b := { b with old_solution := reinit b.n_dofs }
  let b := { b with old_old_solution := reinit b.n_dofs }
  let b := { b with solution := reinit b.n_dofs }
  let b := { b with system_rhs := reinit b.n_dofs }
  b.observe Label.setup_system

/-- The member `assemble_system_2`, as far as the driver state goes: `system_rhs` is filled. -/
def assemble_system_2 (lib : Lib) (b : Burger) : Burger :=
  { b with system_rhs := overwrite b.system_rhs (lib.assemble b) }

/-- The member `solve`: `solution` is filled. -/
def solve (lib : Lib) (b : Burger) : Burger :=
  { b with solution := overwrite b.solution (lib.solve b) }

/-- The member `output_results`: one snapshot, whose file name is built from
`timestep_number`. -/
def output_results (b : Burger) : Burger :=
  b.observe Label.output_results

/-- The member `refine_grid (min_grid_level, max_grid_level)`. -/
def refine_grid (lib : Lib) (min_grid_level max_grid_level : Nat) (b : Burger) : Burger :=
  let b := b.observe Label.refine_grid
  let estimated_error_per_cell := lib.estimate b
  let marked :=
    lib.refine_and_coarsen_fixed_number b.triangulation estimated_error_per_cell 0.5 0.2
  let clamped := clamp_flags min_grid_level max_grid_level marked
  let previous_solution := b.solution
  let before := b
  let b := { b with triangulation := clamped.execute_coarsening_and_refinement }
  let b := setup_system lib b
  { b with solution := overwrite b.solution (lib.interpolate before b previous_solution) }

/-- The statements of `run` from the label `start_time_iteration` up to the `do`. -/
def start_time_iteration (lib : Lib) (b : Burger) : Burger :=
  let b := { b with timestep_number := 0 }
  let b := { b with time := 0 }
  let b := b.observe Label.start_time_iteration
  let b := { b with old_solution := overwrite b.old_solution (lib.project b) }
  let b := { b with solution := b.old_solution }
  output_results b

/-- The statement `++pre_refinement_step` of `run`, on an `unsigned int`. -/
def increment_pre_refinement_step (b : Burger) : Burger :=
  { b with pre_refinement_step := (b.pre_refinement_step + 1) % 2 ^ 32 }

/-- The three calls `old_old_solution.reinit(solution.size())`,
`old_solution.reinit(solution.size())`, `system_rhs.reinit(solution.size())` that follow
each call of `refine_grid` in `run`. -/
def reinit_after_refine (b : Burger) : Burger :=
  let b := { b with old_old_solution := reinit b.solution.length }
  let b := { b with old_solution := reinit b.solution.length }
  let b := { b with system_rhs := reinit b.solution.length }
  b.observe Label.reinit

/-- The statements `time += time_step; ++timestep_number;` of `run`; the counter is an
`unsigned int`. -/
def advance_time (b : Burger) : Burger :=
  let b := { b with time := b.time + b.time_step }
  { b with timestep_number := (b.timestep_number + 1) % 2 ^ 32 }

/-- The three assignments that close the loop body, the history rotation:
`old_old_solution = old_solution; old_solution = solution; solution = 0;`. -/
def rotate_history (b : Burger) : Burger :=
  let b := { b with old_old_solution := b.old_solution }
  let b := { b with old_solution := b.solution }
  { b with solution := List.replicate b.solution.length 0 }

/-- How one execution of the body of the `do ... while` ends: with the `goto`, with a loop
test that holds, or with a loop test that fails. -/
inductive Outcome where
  | goto_start (b : Burger)
  | continue_loop (b : Burger)
  | finished (b : Burger)

/-- The driver state an execution of the loop body ends in. -/
def Outcome.state : Outcome → Burger
  | .goto_start b => b
  | .continue_loop b => b
  | .finished b => b

/-- The constant `initial_global_refinement` of `run`. -/
def initial_global_refinement : Nat := 2

/-- One execution of the body of the `do ... while (time <= 1.0)` of `run`, followed by the
loop test; `n_adaptive_pre_refinement_steps` is the pre-refinement budget. -/
def loop_body (lib : Lib) (n_adaptive_pre_refinement_steps : Nat) (b : Burger) : Outcome :=
  let b := b.observe Label.time_step
  let b := assemble_system_2 lib b
  let b := solve lib b
  let b := output_results b
  if b.timestep_number = 1 ∧ b.pre_refinement_step < n_adaptive_pre_refinement_steps then
    let b := refine_grid lib initial_global_refinement
      (initial_global_refinement + n_adaptive_pre_refinement_steps) b
    let b := increment_pre_refinement_step b
    let b := reinit_after_refine b
    Outcome.goto_start (b.observe Label.goto_start)
  else
    let b :=
      if b.timestep_number > 0 ∧ b.timestep_number % 5 = 0 then
        reinit_after_refine (refine_grid lib initial_global_refinement
          (initial_global_refinement + n_adaptive_pre_refinement_steps) b)
      else b
    let b := advance_time b
    let b := rotate_history b
    let b := b.observe Label.rotated
    if b.time ≤ 1.0 then Outcome.continue_loop b else Outcome.finished b

/-- The driver state of the loop body after `assemble_system_2`, `solve` and
`output_results`. -/
def body_until_output (lib : Lib) (b : Burger) : Burger :=
  output_results (solve lib (assemble_system_2 lib (b.observe Label.time_step)))

/-- The driver state at the `goto` of the loop body, when its first branch is taken. -/
def goto_state (lib : Lib) (n_adaptive_pre_refinement_steps : Nat) (b : Burger) : Burger :=
  (reinit_after_refine (increment_pre_refinement_step
    (refine_grid lib initial_global_refinement
      (initial_global_refinement + n_adaptive_pre_refinement_steps)
      (body_until_output lib b)))).observe Label.goto_start

/-- The driver state at the loop test, when the first branch of the loop body is not
taken. -/
def advance_state (lib : Lib) (n_adaptive_pre_refinement_steps : Nat) (b : Burger) : Burger :=
  (rotate_history (advance_time
    (if b.timestep_number > 0 ∧ b.timestep_number % 5 = 0 then
      reinit_after_refine (refine_grid lib initial_global_refinement
        (initial_global_refinement + n_adaptive_pre_refinement_steps) (body_until_output lib b))
    else body_until_output lib b))).observe Label.rotated

/-- The driver state at the next loop head: after a `goto` the statements from the label
`start_time_iteration` to the `do` are executed first. -/
def Outcome.next_head (lib : Lib) : Outcome → Burger
  | .goto_start b => start_time_iteration lib b
  | .continue_loop b => b
  | .finished b => b

/-- The loop of `run` from the `do` on: the body is executed until the test fails, and a
`goto` re-enters through `start_time_iteration`.  `fuel` bounds the number of executions of
the body; `none` means that the bound was reached first. -/
def time_loop (lib : Lib) (n_adaptive_pre_refinement_steps : Nat) : Nat → Burger → Option Burger
  | 0, _ => none
  | fuel + 1, b =>
    match loop_body lib n_adaptive_pre_refinement_steps b with
    | .goto_start b1 =>
      time_loop lib n_adaptive_pre_refinement_steps fuel (start_time_iteration lib b1)
    | .continue_loop b1 => time_loop lib n_adaptive_pre_refinement_steps fuel b1
    | .finished b1 => some b1

/-- The member `run` on a freshly constructed `Burger<2>`; in the source the budget
`n_adaptive_pre_refinement_steps` is 4. -/
def run (lib : Lib) (n_adaptive_pre_refinement_steps fuel : Nat) : Option Burger :=
  let b := make_grid Burger.new
  let b := setup_system lib b
  let b := { b with pre_refinement_step := 0 }
  time_loop lib n_adaptive_pre_refinement_steps fuel (start_time_iteration lib b)

/-- The number of records with a given label. -/
def count_label (l : Label) (trace : List Obs) : Nat :=
  trace.countP (fun o => o.label = l)

/-- The driver state at the first loop head of `run`. -/
def run_head (lib : Lib) : Burger :=
  start_time_iteration lib
    { setup_system lib (make_grid Burger.new) with pre_refinement_step := 0 }

/-! ## The values of `time` in a pass -/

/-- The value of `time` after `n` executions of `time += time_step`, from `time = 0` and
with `time_step = 1. / 500`. -/
def time_after : Nat → Double
  | 0 => 0
  | n + 1 => time_after n + 1 / 500

/-- The value of `time` after `n` more executions of `time += time_step`, provided the
loop test `time <= 1.0` holds after each of them. -/
def times_within : Nat → Double → Option Double
  | 0, t => some t
  | n + 1, t => if t + 1 / 500 ≤ 1.0 then times_within n (t + 1 / 500) else none

/-- The member `advection_cell_operator (u_val, v_val, u_grad, v_grad, beta)`;
`contract` of two `Tensor<1, 2>` is their scalar product. -/
def advection_cell_operator (b : Burger) (u_val v_val : ℚ) (u_grad v_grad beta : Tensor1) : ℚ :=
  (1 - b.theta_skew) * beta.dot u_grad * v_val
    + (0 - b.theta_skew) * beta.dot v_grad * u_val

/-- The library function `Utilities::int_to_string (value, digits)`: the decimal digits of
`value`, padded with leading zeros to `digits` characters. -/
def int_to_string (value digits : Nat) : String :=
  String.mk (List.replicate (digits - (Nat.repr value).length) '0') ++ Nat.repr value

/-- The file name that `output_results` builds from `timestep_number`. -/
def output_file_name (timestep_number : Nat) : String :=
  "solution-" ++ int_to_string timestep_number 3 ++ ".vtk"

/-- The timestep indices of the snapshots in a sequence of records: the value of
`timestep_number` at each call of `output_results`, oldest first. -/
def snapshot_indices (trace : List Obs) : List Nat :=
  (trace.filter (fun o => o.label = Label.output_results)).map (fun o => o.timestep_number)

/-- The snapshot indices of `n` passes that each end with the `goto` at index 1. -/
def restarted_passes : Nat → List Nat
  | 0 => []
  | n + 1 => restarted_passes n ++ [0, 0, 1]

/-- The snapshot indices at a loop head: those of the passes that were restarted, then
those of the current pass, which has reached the timestep index of the head. -/
def SnapshotInv (K : Nat) (b : Burger) : Prop :=
  b.time_step = 1 / 500
  ∧ b.timestep_number ≤ 500
  ∧ b.time = time_after b.timestep_number
  ∧ b.pre_refinement_step ≤ K
  ∧ snapshot_indices b.trace
      = restarted_passes b.pre_refinement_step ++ 0 :: List.range b.timestep_number

/-! ## Invariants of the loop -/

/-- The bookkeeping of restarts at a loop head. -/
def RestartInv (K : Nat) (b : Burger) : Prop :=
  count_label Label.goto_start b.trace = b.pre_refinement_step
  ∧ b.pre_refinement_step ≤ K
  ∧ count_label Label.start_time_iteration b.trace = b.pre_refinement_step + 1
  ∧ (∀ o ∈ b.trace, o.label = Label.goto_start → o.timestep_number = 1)
  ∧ (∀ o ∈ b.trace, o.label = Label.start_time_iteration → o.time = 0 ∧ o.timestep_number = 0)

/-- The buffer sizes at a loop head and in every record taken so far. -/
def SizesInv (b : Burger) : Prop :=
  b.solution.length = b.n_dofs ∧ b.old_solution.length = b.n_dofs
  ∧ b.old_old_solution.length = b.n_dofs
  ∧ ∀ o ∈ b.trace, o.solution_size = o.n_dofs ∧ o.old_solution_size = o.n_dofs
      ∧ o.old_old_solution_size = o.n_dofs

/-- The records that every run contains: of `setup_system`, of the label
`start_time_iteration` and, once time has advanced, of the history rotation. -/
def OccursInv (b : Burger) : Prop :=
  0 < count_label Label.setup_system b.trace
  ∧ 0 < count_label Label.start_time_iteration b.trace
  ∧ (b.time = 0 ∨ 0 < count_label Label.rotated b.trace)

/-- The count of loop-body records in a pass without restart: after `j` executions of the
body the time is `time_after j`. -/
def LastPassInv (K c0 g0 : Nat) (b : Burger) : Prop :=
  K ≤ b.pre_refinement_step ∧ b.time_step = 1 / 500
  ∧ count_label Label.goto_start b.trace = g0
  ∧ ∃ j, j ≤ 500 ∧ b.time = time_after j
      ∧ count_label Label.time_step b.trace = c0 + j

/-! ## Process surface: `main` -/

/-- How the call `burger_equation_solver.run()` inside the `try` block of `main`
ends: it returns, it throws something derived from `std::exception` (carrying
`exc.what()`), or it throws anything else. -/
inductive RunOutcome where
  | completed
  | std_exception (what : String)
  | unknown_exception
deriving DecidableEq

/-- What `main` leaves behind: its return value and the pieces streamed to `std::cerr`. -/
structure MainResult where
  status : Int
  cerr : List String
deriving DecidableEq

/-- The line of dashes that borders both reports of `main`. -/
def banner : String := "----------------------------------------------------"

/-- The function `main`: the `try` block followed by its two handlers.
`std::endl` is embedded as the string of one newline. -/
def main (run : RunOutcome) : MainResult :=
  match run with
  | .std_exception what =>
    { status := 1
      cerr := ["\n", "\n", banner, "\n",
               "Exception on processing: ", "\n", what, "\n", "Aborting!", "\n", banner, "\n"] }
  | .unknown_exception =>
    { status := 1
      cerr := ["\n", "\n", banner, "\n",
               "Unknown exception!", "\n", "Aborting!", "\n", banner, "\n"] }
  | .completed => { status := 0, cerr := [] }

/-! ## Concrete inputs -/

/-- A cell with one basis function and two quadrature points. -/
def fe_example : FEValues :=
  { dofs_per_cell := 1
    n_q_points := 2
    value := fun _ _ => ⟨1, 0⟩
    gradient := fun _ _ => ⟨⟨0, 0⟩, ⟨0, 0⟩⟩
    JxW := fun _ => 1 / 2
    quadrature_point := fun q => if q = 0 then ⟨3 / 5, 0⟩ else ⟨0, 0⟩ }

/-- A library whose unknown count is twice the number of active cells, whose marking sets
no flag and whose vectors are zero. -/
def zero_lib : Lib :=
  { distribute_dofs := fun t => 2 * t.n_active_cells
    estimate := fun _ => []
    refine_and_coarsen_fixed_number := fun t _ _ _ => t
    interpolate := fun _ _ _ _ => 0
    project := fun _ _ => 0
    assemble := fun _ _ => 0
    solve := fun _ _ => 0 }

/-- A marked mesh with cells on levels 0 to 2: a coarse cell with three active children and
one refined child. -/
def mesh_example : Triangulation :=
  { coarse := [Cell.refined (Cell.active true true) (Cell.active false true)
                (Cell.active false false)
                (Cell.refined (Cell.active true false) (Cell.active true true)
                  (Cell.active false true) (Cell.active false false))]
    n_levels := 3 }

/-- A driver state in the steady loop: timestep index 5, budget 4 used up. -/
def steady_example : Burger :=
  { run_head zero_lib with timestep_number := 5, pre_refinement_step := 4 }

/-! ## Theorems: binary64 comparisons -/

theorem double_le_iff (a b : Double) : a ≤ b ↔ Double.le a b = true := Iff.rfl

theorem double_lt_iff (a b : Double) : a < b ↔ Double.lt a b = true := Iff.rfl

theorem double_le_trans {a b c : Double} (hab : a ≤ b) (hbc : b ≤ c) : a ≤ c := by
  rw [double_le_iff] at *
  cases a <;> cases b <;> cases c <;> simp_all [Double.le]
  exact le_trans hab hbc

/-! ## Theorems: forcing function -/

theorem windows_disjoint (φ lo1 hi1 lo2 hi2 : Double) (h : ¬ (lo2 ≤ hi1))
    (h1 : φ ≥ lo1 ∧ φ ≤ hi1) : ¬ (φ ≥ lo2 ∧ φ ≤ hi2) := by
  intro h2
  exact h (double_le_trans h2.1 h1.2)

/-- C1 (amended): for every time `t`, point `(x0, x1)` and component `c ∈ {0, 1}`,
`RightHandSide<2>::value` returns the piecewise value when the phase and the window tests
are taken in binary64 arithmetic: with `φ = t/0.2 - floor (t/0.2)` computed in `double`
and the bounds the `double` literals, component 0 is `1` when
`(0.0 ≤ φ ≤ 0.2 ∧ x0 > 0.5 ∧ x1 > -0.5) ∨ (0.5 ≤ φ ≤ 0.7 ∧ x0 > -0.5 ∧ x1 > 0.5)` and `0`
otherwise; component 1 the same with the windows `[0.2, 0.4]` and `[0.7, 0.9]`. -/
theorem C1_value_piecewise_binary64 (t x0 x1 : Double) :
    (RightHandSide.new t).value ⟨x0, x1⟩ 0 =
        (if (t / 0.2 - Double.floor (t / 0.2) ≥ 0.0 ∧ t / 0.2 - Double.floor (t / 0.2) ≤ 0.2
              ∧ x0 > 0.5 ∧ x1 > -0.5)
            ∨ (t / 0.2 - Double.floor (t / 0.2) ≥ 0.5
              ∧ t / 0.2 - Double.floor (t / 0.2) ≤ 0.7 ∧ x0 > -0.5 ∧ x1 > 0.5)
         then 1 else 0)
    ∧ (RightHandSide.new t).value ⟨x0, x1⟩ 1 =
        (if (t / 0.2 - Double.floor (t / 0.2) ≥ 0.2 ∧ t / 0.2 - Double.floor (t / 0.2) ≤ 0.4
              ∧ x0 > 0.5 ∧ x1 > -0.5)
            ∨ (t / 0.2 - Double.floor (t / 0.2) ≥ 0.7
              ∧ t / 0.2 - Double.floor (t / 0.2) ≤ 0.9 ∧ x0 > -0.5 ∧ x1 > 0.5)
         then 1 else 0) := by
  have hphi : (RightHandSide.new t).point_within_period
      = t / 0.2 - Double.floor (t / 0.2) := rfl
  generalize t / 0.2 - Double.floor (t / 0.2) = φ at hphi ⊢
  have hd0 : ¬ ((0.5 : Double) ≤ 0.2) := by decide!
  have hd1 : ¬ ((0.7 : Double) ≤ 0.4) := by decide!
  constructor
  · simp only [RightHandSide.value, hphi]
    by_cases h1 : φ ≥ 0.0 ∧ φ ≤ 0.2
    · have h2 := windows_disjoint φ 0.0 0.2 0.5 0.7 hd0 h1
      by_cases hx : x0 > 0.5 ∧ x1 > -0.5
      · rw [if_pos h1, if_pos hx, if_pos]
        exact Or.inl ⟨h1.1, h1.2, hx.1, hx.2⟩
      · rw [if_pos h1, if_neg hx, if_neg]
        rintro (h | h)
        · exact hx ⟨h.2.2.1, h.2.2.2⟩
        · exact h2 ⟨h.1, h.2.1⟩
    · by_cases h2 : φ ≥ 0.5 ∧ φ ≤ 0.7
      · by_cases hx : x0 > -0.5 ∧ x1 > 0.5
        · rw [if_neg h1, if_pos h2, if_pos hx, if_pos]
          exact Or.inr ⟨h2.1, h2.2, hx.1, hx.2⟩
        · rw [if_neg h1, if_pos h2, if_neg hx, if_neg]
          rintro (h | h)
          · exact h1 ⟨h.1, h.2.1⟩
          · exact hx ⟨h.2.2.1, h.2.2.2⟩
      · rw [if_neg h1, if_neg h2, if_neg]
        rintro (h | h)
        · exact h1 ⟨h.1, h.2.1⟩
        · exact h2 ⟨h.1, h.2.1⟩
  · simp only [RightHandSide.value, hphi]
    by_cases h1 : φ ≥ 0.2 ∧ φ ≤ 0.4
    · have h2 := windows_disjoint φ 0.2 0.4 0.7 0.9 hd1 h1
      by_cases hx : x0 > 0.5 ∧ x1 > -0.5
      · rw [if_pos h1, if_pos hx, if_pos]
        exact Or.inl ⟨h1.1, h1.2, hx.1, hx.2⟩
      · rw [if_pos h1, if_neg hx, if_neg]
        rintro (h | h)
        · exact hx ⟨h.2.2.1, h.2.2.2⟩
        · exact h2 ⟨h.1, h.2.1⟩
    · by_cases h2 : φ ≥ 0.7 ∧ φ ≤ 0.9
      · by_cases hx : x0 > -0.5 ∧ x1 > 0.5
        · rw [if_neg h1, if_pos h2, if_pos hx, if_pos]
          exact Or.inr ⟨h2.1, h2.2, hx.1, hx.2⟩
        · rw [if_neg h1, if_pos h2, if_neg hx, if_neg]
          rintro (h | h)
          · exact h1 ⟨h.1, h.2.1⟩
          · exact hx ⟨h.2.2.1, h.2.2.2⟩
      · rw [if_neg h1, if_neg h2, if_neg]
        rintro (h | h)
        · exact h1 ⟨h.1, h.2.1⟩
        · exact h2 ⟨h.1, h.2.1⟩

/-- C1 (as stated, refuted): at the time `0.04`, the point `(0.6, 0.6)` and component 1 the
code returns `0`, because `0.04 / 0.2` is `0.19999999999999998` in `double`; the phase of
exact arithmetic, both for the `double` nearest to `0.04` and for the decimal `0.04`, lies
in the window `[0.2, 0.4]`, and the point satisfies `x0 > 0.5` and `x1 > -0.5`, so that the
piecewise formula with the exact phase gives `1`. -/
theorem C1_counterexample :
    (RightHandSide.new 0.04).value ⟨0.6, 0.6⟩ 1 = 0
    ∧ (0.04 : Double) / 0.2 < 0.2
    ∧ (0 : ℚ) ≤ (0.04 : Double).toRat
    ∧ (0.2 : ℚ) ≤ (0.04 : Double).toRat / 0.2 - Int.floor ((0.04 : Double).toRat / 0.2)
    ∧ (0.04 : Double).toRat / 0.2 - Int.floor ((0.04 : Double).toRat / 0.2) ≤ (0.4 : ℚ)
    ∧ (0.2 : ℚ) ≤ (0.04 : ℚ) / 0.2 - Int.floor ((0.04 : ℚ) / 0.2)
    ∧ (0.04 : ℚ) / 0.2 - Int.floor ((0.04 : ℚ) / 0.2) ≤ (0.4 : ℚ)
    ∧ (0.6 : Double).toRat > (0.5 : ℚ) ∧ (0.6 : Double).toRat > (-0.5 : ℚ) := by
  have h04 : (0.04 : Double).toRat = 5764607523034235 / 144115188075855872 := by decide!
  have h06 : (0.6 : Double).toRat = 5404319552844595 / 9007199254740992 := by decide!
  have hf1 : Int.floor ((5764607523034235 / 144115188075855872 : ℚ) / 0.2) = 0 := by
    rw [Int.floor_eq_iff]; norm_num
  have hf2 : Int.floor ((0.04 : ℚ) / 0.2) = 0 := by
    rw [Int.floor_eq_iff]; norm_num
  refine ⟨by decide!, by decide!, ?_, ?_, ?_, ?_, ?_, ?_, ?_⟩
  · rw [h04]; norm_num
  · rw [h04, hf1]; norm_num
  · rw [h04, hf1]; norm_num
  · rw [hf2]; norm_num
  · rw [hf2]; norm_num
  · rw [h06]; norm_num
  · rw [h06]; norm_num

/-- C2: at time `t = 0.1`, where the phase is `0.5`, and point `(0.6, 0.6)`,
`RightHandSide<2>::value` returns `1` for component 0 and `0` for component 1. -/
theorem C2_literal_check :
    (RightHandSide.new 0.1).point_within_period = 0.5
    ∧ (RightHandSide.new 0.1).value ⟨0.6, 0.6⟩ 0 = 1
    ∧ (RightHandSide.new 0.1).value ⟨0.6, 0.6⟩ 1 = 0 := by
  refine ⟨by decide!, by decide!, by decide!⟩

@[simp] theorem observe_timestep_number (b : Burger) (l : Label) :
    (b.observe l).timestep_number = b.timestep_number := rfl

@[simp] theorem observe_time (b : Burger) (l : Label) :
    (b.observe l).time = b.time := rfl

@[simp] theorem observe_time_step (b : Burger) (l : Label) :
    (b.observe l).time_step = b.time_step := rfl

@[simp] theorem observe_pre_refinement_step (b : Burger) (l : Label) :
    (b.observe l).pre_refinement_step = b.pre_refinement_step := rfl

@[simp] theorem observe_n_dofs (b : Burger) (l : Label) :
    (b.observe l).n_dofs = b.n_dofs := rfl

@[simp] theorem observe_solution (b : Burger) (l : Label) :
    (b.observe l).solution = b.solution := rfl

@[simp] theorem observe_old_solution (b : Burger) (l : Label) :
    (b.observe l).old_solution = b.old_solution := rfl

@[simp] theorem observe_old_old_solution (b : Burger) (l : Label) :
    (b.observe l).old_old_solution = b.old_old_solution := rfl

@[simp] theorem observe_triangulation (b : Burger) (l : Label) :
    (b.observe l).triangulation = b.triangulation := rfl

@[simp] theorem assemble_system_2_timestep_number (lib : Lib) (b : Burger) :
    (assemble_system_2 lib b).timestep_number = b.timestep_number := rfl

@[simp] theorem assemble_system_2_time (lib : Lib) (b : Burger) :
    (assemble_system_2 lib b).time = b.time := rfl

@[simp] theorem assemble_system_2_time_step (lib : Lib) (b : Burger) :
    (assemble_system_2 lib b).time_step = b.time_step := rfl

@[simp] theorem assemble_system_2_pre_refinement_step (lib : Lib) (b : Burger) :
    (assemble_system_2 lib b).pre_refinement_step = b.pre_refinement_step := rfl

@[simp] theorem assemble_system_2_n_dofs (lib : Lib) (b : Burger) :
    (assemble_system_2 lib b).n_dofs = b.n_dofs := rfl

@[simp] theorem assemble_system_2_solution (lib : Lib) (b : Burger) :
    (assemble_system_2 lib b).solution = b.solution := rfl

@[simp] theorem assemble_system_2_old_solution (lib : Lib) (b : Burger) :
    (assemble_system_2 lib b).old_solution = b.old_solution := rfl

@[simp] theorem assemble_system_2_old_old_solution (lib : Lib) (b : Burger) :
    (assemble_system_2 lib b).old_old_solution = b.old_old_solution := rfl

@[simp] theorem assemble_system_2_trace (lib : Lib) (b : Burger) :
    (assemble_system_2 lib b).trace = b.trace := rfl

@[simp] theorem assemble_system_2_triangulation (lib : Lib) (b : Burger) :
    (assemble_system_2 lib b).triangulation = b.triangulation := rfl

@[simp] theorem solve_timestep_number (lib : Lib) (b : Burger) :
    (solve lib b).timestep_number = b.timestep_number := rfl

@[simp] theorem solve_time (lib : Lib) (b : Burger) :
    (solve lib b).time = b.time := rfl

@[simp] theorem solve_time_step (lib : Lib) (b : Burger) :
    (solve lib b).time_step = b.time_step := rfl

@[simp] theorem solve_pre_refinement_step (lib : Lib) (b : Burger) :
    (solve lib b).pre_refinement_step = b.pre_refinement_step := rfl

@[simp] theorem solve_n_dofs (lib : Lib) (b : Burger) :
    (solve lib b).n_dofs = b.n_dofs := rfl

@[simp] theorem solve_old_solution (lib : Lib) (b : Burger) :
    (solve lib b).old_solution = b.old_solution := rfl

@[simp] theorem solve_old_old_solution (lib : Lib) (b : Burger) :
    (solve lib b).old_old_solution = b.old_old_solution := rfl

@[simp] theorem solve_trace (lib : Lib) (b : Burger) :
    (solve lib b).trace = b.trace := rfl

@[simp] theorem solve_triangulation (lib : Lib) (b : Burger) :
    (solve lib b).triangulation = b.triangulation := rfl

@[simp] theorem output_results_timestep_number (b : Burger) :
    (output_results b).timestep_number = b.timestep_number := rfl

@[simp] theorem output_results_time (b : Burger) :
    (output_results b).time = b.time := rfl

@[simp] theorem output_results_time_step (b : Burger) :
    (output_results b).time_step = b.time_step := rfl

@[simp] theorem output_results_pre_refinement_step (b : Burger) :
    (output_results b).pre_refinement_step = b.pre_refinement_step := rfl

@[simp] theorem output_results_n_dofs (b : Burger) :
    (output_results b).n_dofs = b.n_dofs := rfl

@[simp] theorem output_results_solution (b : Burger) :
    (output_results b).solution = b.solution := rfl

@[simp] theorem output_results_old_solution (b : Burger) :
    (output_results b).old_solution = b.old_solution := rfl

@[simp] theorem output_results_old_old_solution (b : Burger) :
    (output_results b).old_old_solution = b.old_old_solution := rfl

@[simp] theorem output_results_triangulation (b : Burger) :
    (output_results b).triangulation = b.triangulation := rfl

@[simp] theorem setup_system_timestep_number (lib : Lib) (b : Burger) :
    (setup_system lib b).timestep_number = b.timestep_number := rfl

@[simp] theorem setup_system_time (lib : Lib) (b : Burger) :
    (setup_system lib b).time = b.time := rfl

@[simp] theorem setup_system_time_step (lib : Lib) (b : Burger) :
    (setup_system lib b).time_step = b.time_step := rfl

@[simp] theorem setup_system_pre_refinement_step (lib : Lib) (b : Burger) :
    (setup_system lib b).pre_refinement_step = b.pre_refinement_step := rfl

@[simp] theorem setup_system_triangulation (lib : Lib) (b : Burger) :
    (setup_system lib b).triangulation = b.triangulation := rfl

@[simp] theorem refine_grid_timestep_number (lib : Lib) (mn mx : Nat) (b : Burger) :
    (refine_grid lib mn mx b).timestep_number = b.timestep_number := rfl

@[simp] theorem refine_grid_time (lib : Lib) (mn mx : Nat) (b : Burger) :
    (refine_grid lib mn mx b).time = b.time := rfl

@[simp] theorem refine_grid_time_step (lib : Lib) (mn mx : Nat) (b : Burger) :
    (refine_grid lib mn mx b).time_step = b.time_step := rfl

@[simp] theorem refine_grid_pre_refinement_step (lib : Lib) (mn mx : Nat) (b : Burger) :
    (refine_grid lib mn mx b).pre_refinement_step = b.pre_refinement_step := rfl

@[simp] theorem increment_pre_timestep_number (b : Burger) :
    (increment_pre_refinement_step b).timestep_number = b.timestep_number := rfl

@[simp] theorem increment_pre_time (b : Burger) :
    (increment_pre_refinement_step b).time = b.time := rfl

@[simp] theorem increment_pre_time_step (b : Burger) :
    (increment_pre_refinement_step b).time_step = b.time_step := rfl

@[simp] theorem increment_pre_n_dofs (b : Burger) :
    (increment_pre_refinement_step b).n_dofs = b.n_dofs := rfl

@[simp] theorem increment_pre_solution (b : Burger) :
    (increment_pre_refinement_step b).solution = b.solution := rfl

@[simp] theorem increment_pre_old_solution (b : Burger) :
    (increment_pre_refinement_step b).old_solution = b.old_solution := rfl

@[simp] theorem increment_pre_old_old_solution (b : Burger) :
    (increment_pre_refinement_step b).old_old_solution = b.old_old_solution := rfl

@[simp] theorem increment_pre_trace (b : Burger) :
    (increment_pre_refinement_step b).trace = b.trace := rfl

@[simp] theorem increment_pre_triangulation (b : Burger) :
    (increment_pre_refinement_step b).triangulation = b.triangulation := rfl

@[simp] theorem reinit_after_refine_timestep_number (b : Burger) :
    (reinit_after_refine b).timestep_number = b.timestep_number := rfl

@[simp] theorem reinit_after_refine_time (b : Burger) :
    (reinit_after_refine b).time = b.time := rfl

@[simp] theorem reinit_after_refine_time_step (b : Burger) :
    (reinit_after_refine b).time_step = b.time_step := rfl

@[simp] theorem reinit_after_refine_pre_refinement_step (b : Burger) :
    (reinit_after_refine b).pre_refinement_step = b.pre_refinement_step := rfl

@[simp] theorem reinit_after_refine_n_dofs (b : Burger) :
    (reinit_after_refine b).n_dofs = b.n_dofs := rfl

@[simp] theorem reinit_after_refine_solution (b : Burger) :
    (reinit_after_refine b).solution = b.solution := rfl

@[simp] theorem reinit_after_refine_triangulation (b : Burger) :
    (reinit_after_refine b).triangulation = b.triangulation := rfl

@[simp] theorem advance_time_time_step (b : Burger) :
    (advance_time b).time_step = b.time_step := rfl

@[simp] theorem advance_time_pre_refinement_step (b : Burger) :
    (advance_time b).pre_refinement_step = b.pre_refinement_step := rfl

@[simp] theorem advance_time_n_dofs (b : Burger) :
    (advance_time b).n_dofs = b.n_dofs := rfl

@[simp] theorem advance_time_solution (b : Burger) :
    (advance_time b).solution = b.solution := rfl

@[simp] theorem advance_time_old_solution (b : Burger) :
    (advance_time b).old_solution = b.old_solution := rfl

@[simp] theorem advance_time_old_old_solution (b : Burger) :
    (advance_time b).old_old_solution = b.old_old_solution := rfl

@[simp] theorem advance_time_trace (b : Burger) :
    (advance_time b).trace = b.trace := rfl

@[simp] theorem advance_time_triangulation (b : Burger) :
    (advance_time b).triangulation = b.triangulation := rfl

@[simp] theorem rotate_history_timestep_number (b : Burger) :
    (rotate_history b).timestep_number = b.timestep_number := rfl

@[simp] theorem rotate_history_time (b : Burger) :
    (rotate_history b).time = b.time := rfl

@[simp] theorem rotate_history_time_step (b : Burger) :
    (rotate_history b).time_step = b.time_step := rfl

@[simp] theorem rotate_history_pre_refinement_step (b : Burger) :
    (rotate_history b).pre_refinement_step = b.pre_refinement_step := rfl

@[simp] theorem rotate_history_n_dofs (b : Burger) :
    (rotate_history b).n_dofs = b.n_dofs := rfl

@[simp] theorem rotate_history_trace (b : Burger) :
    (rotate_history b).trace = b.trace := rfl

@[simp] theorem rotate_history_triangulation (b : Burger) :
    (rotate_history b).triangulation = b.triangulation := rfl

@[simp] theorem start_time_iteration_time_step (lib : Lib) (b : Burger) :
    (start_time_iteration lib b).time_step = b.time_step := rfl

@[simp] theorem start_time_iteration_pre_refinement_step (lib : Lib) (b : Burger) :
    (start_time_iteration lib b).pre_refinement_step = b.pre_refinement_step := rfl

@[simp] theorem start_time_iteration_n_dofs (lib : Lib) (b : Burger) :
    (start_time_iteration lib b).n_dofs = b.n_dofs := rfl

@[simp] theorem start_time_iteration_old_old_solution (lib : Lib) (b : Burger) :
    (start_time_iteration lib b).old_old_solution = b.old_old_solution := rfl

@[simp] theorem start_time_iteration_triangulation (lib : Lib) (b : Burger) :
    (start_time_iteration lib b).triangulation = b.triangulation := rfl

/-! ## Theorems: what each step of the driver changes -/

@[simp] theorem overwrite_length (v : List ℚ) (f : Nat → ℚ) : (overwrite v f).length = v.length := by
  simp [overwrite]

@[simp] theorem reinit_length (n : Nat) : (reinit n).length = n := by
  simp [reinit]

@[simp] theorem observe_trace (b : Burger) (l : Label) :
    (b.observe l).trace = b.trace ++ [b.record l] := rfl

@[simp] theorem output_results_trace (b : Burger) :
    (output_results b).trace = b.trace ++ [b.record Label.output_results] := rfl

@[simp] theorem solve_solution_length (lib : Lib) (b : Burger) :
    (solve lib b).solution.length = b.solution.length := by
  simp [solve]

@[simp] theorem setup_system_n_dofs (lib : Lib) (b : Burger) :
    (setup_system lib b).n_dofs = lib.distribute_dofs b.triangulation := rfl

@[simp] theorem setup_system_solution_length (lib : Lib) (b : Burger) :
    (setup_system lib b).solution.length = lib.distribute_dofs b.triangulation := by
  simp [setup_system]

@[simp] theorem setup_system_old_solution_length (lib : Lib) (b : Burger) :
    (setup_system lib b).old_solution.length = lib.distribute_dofs b.triangulation := by
  simp [setup_system]

@[simp] theorem setup_system_old_old_solution_length (lib : Lib) (b : Burger) :
    (setup_system lib b).old_old_solution.length = lib.distribute_dofs b.triangulation := by
  simp [setup_system]

@[simp] theorem setup_system_trace (lib : Lib) (b : Burger) :
    (setup_system lib b).trace
      = b.trace ++ [{ label := Label.setup_system
                      timestep_number := b.timestep_number
                      time := b.time
                      pre_refinement_step := b.pre_refinement_step
                      n_dofs := lib.distribute_dofs b.triangulation
                      solution_size := lib.distribute_dofs b.triangulation
                      old_solution_size := lib.distribute_dofs b.triangulation
                      old_old_solution_size := lib.distribute_dofs b.triangulation }] := by
  simp [setup_system, Burger.observe, Burger.record]

@[simp] theorem refine_grid_solution_length (lib : Lib) (mn mx : Nat) (b : Burger) :
    (refine_grid lib mn mx b).solution.length = (refine_grid lib mn mx b).n_dofs := by
  simp [refine_grid]

@[simp] theorem refine_grid_old_solution_length (lib : Lib) (mn mx : Nat) (b : Burger) :
    (refine_grid lib mn mx b).old_solution.length = (refine_grid lib mn mx b).n_dofs := by
  simp [refine_grid]

@[simp] theorem refine_grid_old_old_solution_length (lib : Lib) (mn mx : Nat) (b : Burger) :
    (refine_grid lib mn mx b).old_old_solution.length = (refine_grid lib mn mx b).n_dofs := by
  simp [refine_grid]

@[simp] theorem refine_grid_trace (lib : Lib) (mn mx : Nat) (b : Burger) :
    (refine_grid lib mn mx b).trace
      = b.trace ++ [b.record Label.refine_grid,
                    { label := Label.setup_system
                      timestep_number := b.timestep_number
                      time := b.time
                      pre_refinement_step := b.pre_refinement_step
                      n_dofs := (refine_grid lib mn mx b).n_dofs
                      solution_size := (refine_grid lib mn mx b).n_dofs
                      old_solution_size := (refine_grid lib mn mx b).n_dofs
                      old_old_solution_size := (refine_grid lib mn mx b).n_dofs }] := by
  simp [refine_grid]

@[simp] theorem increment_pre_pre_refinement_step (b : Burger) :
    (increment_pre_refinement_step b).pre_refinement_step
      = (b.pre_refinement_step + 1) % 2 ^ 32 := rfl

@[simp] theorem reinit_after_refine_old_solution_length (b : Burger) :
    (reinit_after_refine b).old_solution.length = b.solution.length := by
  simp [reinit_after_refine]

@[simp] theorem reinit_after_refine_old_old_solution_length (b : Burger) :
    (reinit_after_refine b).old_old_solution.length = b.solution.length := by
  simp [reinit_after_refine]

@[simp] theorem reinit_after_refine_trace (b : Burger) :
    (reinit_after_refine b).trace
      = b.trace ++ [{ label := Label.reinit
                      timestep_number := b.timestep_number
                      time := b.time
                      pre_refinement_step := b.pre_refinement_step
                      n_dofs := b.n_dofs
                      solution_size := b.solution.length
                      old_solution_size := b.solution.length
                      old_old_solution_size := b.solution.length }] := by
  simp [reinit_after_refine, Burger.observe, Burger.record]

@[simp] theorem advance_time_timestep_number_eq (b : Burger) :
    (advance_time b).timestep_number = (b.timestep_number + 1) % 2 ^ 32 := rfl

@[simp] theorem advance_time_time_eq (b : Burger) :
    (advance_time b).time = b.time + b.time_step := rfl

@[simp] theorem rotate_history_old_old_solution_eq (b : Burger) :
    (rotate_history b).old_old_solution = b.old_solution := rfl

@[simp] theorem rotate_history_old_solution_eq (b : Burger) :
    (rotate_history b).old_solution = b.solution := rfl

@[simp] theorem rotate_history_solution_length (b : Burger) :
    (rotate_history b).solution.length = b.solution.length := by
  simp [rotate_history]

@[simp] theorem start_time_iteration_timestep_number_eq (lib : Lib) (b : Burger) :
    (start_time_iteration lib b).timestep_number = 0 := rfl

@[simp] theorem start_time_iteration_time_eq (lib : Lib) (b : Burger) :
    (start_time_iteration lib b).time = 0 := rfl

@[simp] theorem start_time_iteration_old_solution_length (lib : Lib) (b : Burger) :
    (start_time_iteration lib b).old_solution.length = b.old_solution.length := by
  simp [start_time_iteration]

@[simp] theorem start_time_iteration_solution_length (lib : Lib) (b : Burger) :
    (start_time_iteration lib b).solution.length = b.old_solution.length := by
  simp [start_time_iteration]

@[simp] theorem start_time_iteration_trace (lib : Lib) (b : Burger) :
    (start_time_iteration lib b).trace
      = b.trace ++ [{ label := Label.start_time_iteration
                      timestep_number := 0
                      time := 0
                      pre_refinement_step := b.pre_refinement_step
                      n_dofs := b.n_dofs
                      solution_size := b.solution.length
                      old_solution_size := b.old_solution.length
                      old_old_solution_size := b.old_old_solution.length },
                    { label := Label.output_results
                      timestep_number := 0
                      time := 0
                      pre_refinement_step := b.pre_refinement_step
                      n_dofs := b.n_dofs
                      solution_size := b.old_solution.length
                      old_solution_size := b.old_solution.length
                      old_old_solution_size := b.old_old_solution.length }] := by
  simp [start_time_iteration, output_results, Burger.observe, Burger.record]

/-! ## Theorems: the ways through the loop body -/

theorem body_until_output_timestep_number (lib : Lib) (b : Burger) :
    (body_until_output lib b).timestep_number = b.timestep_number := rfl

theorem body_until_output_pre_refinement_step (lib : Lib) (b : Burger) :
    (body_until_output lib b).pre_refinement_step = b.pre_refinement_step := rfl

theorem loop_body_goto (lib : Lib) (K : Nat) (b : Burger)
    (h : b.timestep_number = 1 ∧ b.pre_refinement_step < K) :
    loop_body lib K b = Outcome.goto_start (goto_state lib K b) := by
  unfold loop_body goto_state body_until_output
  simp only [output_results_timestep_number, solve_timestep_number,
    assemble_system_2_timestep_number, observe_timestep_number,
    output_results_pre_refinement_step, solve_pre_refinement_step,
    assemble_system_2_pre_refinement_step, observe_pre_refinement_step, h, and_self, if_true]

theorem loop_body_advance (lib : Lib) (K : Nat) (b : Burger)
    (h : ¬ (b.timestep_number = 1 ∧ b.pre_refinement_step < K)) :
    loop_body lib K b
      = if b.time + b.time_step ≤ 1.0 then Outcome.continue_loop (advance_state lib K b)
        else Outcome.finished (advance_state lib K b) := by
  have h1 : (advance_state lib K b).time = b.time + b.time_step := by
    unfold advance_state body_until_output
    split_ifs <;> simp
  rw [← h1]
  unfold loop_body
  simp only [output_results_timestep_number, solve_timestep_number,
    assemble_system_2_timestep_number, observe_timestep_number,
    output_results_pre_refinement_step, solve_pre_refinement_step,
    assemble_system_2_pre_refinement_step, observe_pre_refinement_step, h, if_false]
  rfl

@[simp] theorem goto_state_pre_refinement_step (lib : Lib) (K : Nat) (b : Burger) :
    (goto_state lib K b).pre_refinement_step = (b.pre_refinement_step + 1) % 2 ^ 32 := rfl

@[simp] theorem goto_state_time_step (lib : Lib) (K : Nat) (b : Burger) :
    (goto_state lib K b).time_step = b.time_step := rfl

@[simp] theorem goto_state_timestep_number (lib : Lib) (K : Nat) (b : Burger) :
    (goto_state lib K b).timestep_number = b.timestep_number := rfl

@[simp] theorem goto_state_time (lib : Lib) (K : Nat) (b : Burger) :
    (goto_state lib K b).time = b.time := rfl

@[simp] theorem advance_state_pre_refinement_step (lib : Lib) (K : Nat) (b : Burger) :
    (advance_state lib K b).pre_refinement_step = b.pre_refinement_step := by
  unfold advance_state body_until_output; split_ifs <;> simp

@[simp] theorem advance_state_time_step (lib : Lib) (K : Nat) (b : Burger) :
    (advance_state lib K b).time_step = b.time_step := by
  unfold advance_state body_until_output; split_ifs <;> simp

@[simp] theorem advance_state_timestep_number (lib : Lib) (K : Nat) (b : Burger) :
    (advance_state lib K b).timestep_number = (b.timestep_number + 1) % 2 ^ 32 := by
  unfold advance_state body_until_output; split_ifs <;> simp

@[simp] theorem advance_state_time (lib : Lib) (K : Nat) (b : Burger) :
    (advance_state lib K b).time = b.time + b.time_step := by
  unfold advance_state body_until_output; split_ifs <;> simp

/-! ## Theorems: the values of `time` -/

theorem times_within_spec :
    ∀ (n k : Nat) (t : Double), times_within n (time_after k) = some t →
      (∀ j, j < n → time_after (k + j + 1) ≤ 1.0) ∧ t = time_after (k + n) := by
  intro n
  induction n with
  | zero =>
    intro k t h
    simp only [times_within, Option.some.injEq] at h
    exact ⟨fun j hj => absurd hj (Nat.not_lt_zero j), h.symm⟩
  | succ n ih =>
    intro k t h
    have hk : time_after k + 1 / 500 = time_after (k + 1) := rfl
    simp only [times_within, hk] at h
    by_cases hle : time_after (k + 1) ≤ 1.0
    · rw [if_pos hle] at h
      obtain ⟨h1, h2⟩ := ih (k + 1) t h
      refine ⟨?_, by rw [h2]; congr 1; omega⟩
      intro j hj
      cases j with
      | zero => exact hle
      | succ j =>
        have := h1 j (by omega)
        have he : k + 1 + j + 1 = k + (j + 1) + 1 := by omega
        rw [he] at this; exact this
    · rw [if_neg hle] at h; simp at h

/-- The 499 additions of `1. / 500` that keep `time <= 1.0`, and the value they reach. -/
theorem times_within_499 :
    times_within 499 0 = some (Double.finite (8989184856231517 / 9007199254740992)) := by
  decide!

theorem time_after_499 :
    time_after 499 = Double.finite (8989184856231517 / 9007199254740992) := by
  have h := times_within_spec 499 0 _ times_within_499
  simpa using h.2.symm

/-- After up to 499 additions the loop test `time <= 1.0` holds. -/
theorem time_after_le (j : Nat) (hj : j ≤ 499) : time_after j ≤ 1.0 := by
  cases j with
  | zero => decide!
  | succ j =>
    have h := (times_within_spec 499 0 _ times_within_499).1 j (by omega)
    simpa using h

/-- After the 500th addition the time is `1.0000000000000007` and the loop test fails. -/
theorem time_after_500 :
    time_after 500 = Double.finite (4503599627370499 / 4503599627370496)
    ∧ ¬ (time_after 500 ≤ 1.0) := by
  have h : time_after 500 = time_after 499 + 1 / 500 := rfl
  rw [h, time_after_499]
  refine ⟨by decide!, by decide!⟩

/-! ## Theorems: termination of the loop -/

theorem time_loop_succ (lib : Lib) (K fuel : Nat) (b : Burger) :
    time_loop lib K (fuel + 1) b
      = match loop_body lib K b with
        | .goto_start b1 => time_loop lib K fuel (start_time_iteration lib b1)
        | .continue_loop b1 => time_loop lib K fuel b1
        | .finished b1 => some b1 := rfl

/-- Safety properties carry over from the loop heads to the end of the loop. -/
theorem time_loop_invariant (lib : Lib) (K : Nat) (Inv : Burger → Prop)
    (hstep : ∀ b, Inv b → Inv ((loop_body lib K b).next_head lib)) :
    ∀ (fuel : Nat) (b b1 : Burger), Inv b → time_loop lib K fuel b = some b1 → Inv b1 := by
  intro fuel
  induction fuel with
  | zero => intro b b1 _ h; simp [time_loop] at h
  | succ n ih =>
    intro b b1 hb h
    rw [time_loop_succ] at h
    have hs := hstep b hb
    cases hlb : loop_body lib K b with
    | goto_start b2 =>
      rw [hlb] at h hs
      exact ih _ _ hs h
    | continue_loop b2 =>
      rw [hlb] at h hs
      exact ih _ _ hs h
    | finished b2 =>
      rw [hlb] at h hs
      simp only [Option.some.injEq] at h
      rw [← h]; exact hs

/-- Safety properties that need the loop test: every loop head has passed the test
`time <= 1.0` or starts at time 0, and the state in which the loop ends has failed it. -/
theorem time_loop_invariant_live (lib : Lib) (K : Nat) (Inv : Burger → Prop)
    (hstep : ∀ b, b.time ≤ 1.0 → Inv b → Inv ((loop_body lib K b).next_head lib)) :
    ∀ (fuel : Nat) (b b1 : Burger), b.time ≤ 1.0 → Inv b →
      time_loop lib K fuel b = some b1 → Inv b1 ∧ ¬ (b1.time ≤ 1.0) := by
  intro fuel
  induction fuel with
  | zero => intro b b1 _ _ h; simp [time_loop] at h
  | succ n ih =>
    intro b b1 hlive hb h
    rw [time_loop_succ] at h
    have hs := hstep b hlive hb
    by_cases hc : b.timestep_number = 1 ∧ b.pre_refinement_step < K
    · rw [loop_body_goto lib K b hc] at h hs
      exact ih (start_time_iteration lib (goto_state lib K b)) b1
        (by rw [start_time_iteration_time_eq]; decide!) hs h
    · rw [loop_body_advance lib K b hc] at h hs
      by_cases hle : b.time + b.time_step ≤ 1.0
      · rw [if_pos hle] at h hs
        exact ih (advance_state lib K b) b1 (by rw [advance_state_time]; exact hle) hs h
      · rw [if_neg hle] at h hs
        simp only [Option.some.injEq] at h
        rw [← h]
        exact ⟨hs, by rw [advance_state_time]; exact hle⟩

/-- The last pass: once the budget is used up, when the time stands at `time_after k`, the
loop ends after `500 - k` more executions of the body. -/
theorem time_loop_last_pass (lib : Lib) (K : Nat) :
    ∀ (m k : Nat) (b : Burger), K ≤ b.pre_refinement_step → b.time_step = 1 / 500 →
      b.time = time_after k → 1 ≤ m → k + m = 500 →
      ∀ extra : Nat, ∃ b1, time_loop lib K (m + extra) b = some b1
        ∧ b1.pre_refinement_step = b.pre_refinement_step ∧ b1.time = time_after 500 := by
  intro m
  induction m with
  | zero => intro k b _ _ _ h; omega
  | succ n ih =>
    intro k b hK hdt ht _ hkm extra
    have hno : ¬ (b.timestep_number = 1 ∧ b.pre_refinement_step < K) := by
      intro h; omega
    have hfuel : n + 1 + extra = (n + extra) + 1 := by omega
    have hnext : b.time + b.time_step = time_after (k + 1) := by rw [ht, hdt]; rfl
    rw [hfuel, time_loop_succ, loop_body_advance lib K b hno, hnext]
    by_cases hn : n = 0
    · subst hn
      have hk : k + 1 = 500 := by omega
      rw [hk, if_neg time_after_500.2]
      refine ⟨_, rfl, by simp, ?_⟩
      rw [advance_state_time, hnext, hk]
    · have hn1 : 1 ≤ n := Nat.one_le_iff_ne_zero.mpr hn
      rw [if_pos (time_after_le (k + 1) (by omega))]
      have hih := ih (k + 1) (advance_state lib K b) ?_ ?_ ?_ hn1 (by omega) extra
      · simpa using hih
      · simpa using hK
      · simpa using hdt
      · rw [advance_state_time, hnext]

/-- The whole loop: from a loop head at time 0 with timestep index 0, every remaining
pre-refinement pass takes two executions of the body and the last pass 500. -/
theorem time_loop_terminates (lib : Lib) (K : Nat) (hK : K < 2 ^ 32) :
    ∀ (d : Nat) (b : Burger), b.pre_refinement_step + d = K → b.time_step = 1 / 500 →
      b.time = 0 → b.timestep_number = 0 →
      ∀ extra : Nat, ∃ b1, time_loop lib K (2 * d + 500 + extra) b = some b1
        ∧ b1.pre_refinement_step = K ∧ b1.time = time_after 500 := by
  intro d
  induction d with
  | zero =>
    intro b hd hdt ht _ extra
    have := time_loop_last_pass lib K 500 0 b (by omega) hdt ht
      (by norm_num) (by norm_num) extra
    have hpre : b.pre_refinement_step = K := by omega
    simpa [hpre] using this
  | succ n ih =>
    intro b hd hdt ht hts extra
    have hfuel : 2 * (n + 1) + 500 + extra = (2 * n + 500 + extra) + 1 + 1 := by omega
    have hno : ¬ (b.timestep_number = 1 ∧ b.pre_refinement_step < K) := by
      intro h; omega
    rw [hfuel, time_loop_succ, loop_body_advance lib K b hno]
    have hle : b.time + b.time_step ≤ 1.0 := by rw [ht, hdt]; exact time_after_le 1 (by omega)
    rw [if_pos hle]
    simp only []
    have hyes : (advance_state lib K b).timestep_number = 1
        ∧ (advance_state lib K b).pre_refinement_step < K := by
      constructor
      · rw [advance_state_timestep_number, hts]; norm_num
      · rw [advance_state_pre_refinement_step]; omega
    rw [time_loop_succ, loop_body_goto lib K _ hyes]
    simp only []
    refine ih _ ?_ ?_ ?_ ?_ extra
    · simp only [start_time_iteration_pre_refinement_step, goto_state_pre_refinement_step,
        advance_state_pre_refinement_step]
      rw [Nat.mod_eq_of_lt (by omega)]; omega
    · simpa using hdt
    · simp
    · simp

/-! ## Theorems: counting records -/

@[simp] theorem record_label (b : Burger) (l : Label) : (b.record l).label = l := rfl

@[simp] theorem record_timestep_number (b : Burger) (l : Label) :
    (b.record l).timestep_number = b.timestep_number := rfl

@[simp] theorem record_time (b : Burger) (l : Label) : (b.record l).time = b.time := rfl

@[simp] theorem record_n_dofs (b : Burger) (l : Label) : (b.record l).n_dofs = b.n_dofs := rfl

@[simp] theorem record_solution_size (b : Burger) (l : Label) :
    (b.record l).solution_size = b.solution.length := rfl

@[simp] theorem record_old_solution_size (b : Burger) (l : Label) :
    (b.record l).old_solution_size = b.old_solution.length := rfl

@[simp] theorem record_old_old_solution_size (b : Burger) (l : Label) :
    (b.record l).old_old_solution_size = b.old_old_solution.length := rfl

@[simp] theorem count_label_nil (l : Label) : count_label l [] = 0 := rfl

@[simp] theorem count_label_append (l : Label) (s t : List Obs) :
    count_label l (s ++ t) = count_label l s + count_label l t := by
  simp [count_label, List.countP_append]

@[simp] theorem count_label_cons (l : Label) (o : Obs) (t : List Obs) :
    count_label l (o :: t) = count_label l t + (if o.label = l then 1 else 0) := by
  simp [count_label, List.countP_cons]

/-! ## Theorems: invariants of the loop -/

theorem restartInv_step (lib : Lib) (K : Nat) (hK : K < 2 ^ 32) (b : Burger)
    (h : RestartInv K b) : RestartInv K ((loop_body lib K b).next_head lib) := by
  obtain ⟨h1, h2, h3, h4, h5⟩ := h
  have hK1 : K < 4294967296 := by simpa using hK
  by_cases hc : b.timestep_number = 1 ∧ b.pre_refinement_step < K
  · rw [loop_body_goto lib K b hc]
    have hmod : (b.pre_refinement_step + 1) % 4294967296 = b.pre_refinement_step + 1 :=
      Nat.mod_eq_of_lt (by omega)
    simp only [Outcome.next_head]
    refine ⟨?_, ?_, ?_, ?_, ?_⟩
    · simp [goto_state, body_until_output, h1, hmod]
    · simp [hmod]; omega
    · simp [goto_state, body_until_output, h3, hmod]
    · intro o ho hl
      simp [goto_state, body_until_output] at ho
      rcases ho with ho | ho | ho | ho | ho | ho | ho | ho | ho
      · exact h4 o ho hl
      all_goals (subst ho; simp [hc.1] at hl ⊢)
    · intro o ho hl
      simp [goto_state, body_until_output] at ho
      rcases ho with ho | ho | ho | ho | ho | ho | ho | ho | ho
      · exact h5 o ho hl
      all_goals (subst ho; simp at hl ⊢)
  · rw [loop_body_advance lib K b hc]
    have hst : (if b.time + b.time_step ≤ 1.0 then Outcome.continue_loop (advance_state lib K b)
        else Outcome.finished (advance_state lib K b)).next_head lib = advance_state lib K b := by
      split_ifs <;> rfl
    rw [hst]
    refine ⟨?_, ?_, ?_, ?_, ?_⟩
    · unfold advance_state body_until_output; split_ifs <;> simp [h1]
    · simpa using h2
    · unfold advance_state body_until_output; split_ifs <;> simp [h3]
    · intro o ho hl
      unfold advance_state body_until_output at ho
      split_ifs at ho
      · simp at ho
        rcases ho with ho | ho | ho | ho | ho | ho | ho
        · exact h4 o ho hl
        all_goals (subst ho; simp at hl)
      · simp at ho
        rcases ho with ho | ho | ho | ho
        · exact h4 o ho hl
        all_goals (subst ho; simp at hl)
    · intro o ho hl
      unfold advance_state body_until_output at ho
      split_ifs at ho
      · simp at ho
        rcases ho with ho | ho | ho | ho | ho | ho | ho
        · exact h5 o ho hl
        all_goals (subst ho; simp at hl)
      · simp at ho
        rcases ho with ho | ho | ho | ho
        · exact h5 o ho hl
        all_goals (subst ho; simp at hl)

theorem sizesInv_step (lib : Lib) (K : Nat) (b : Burger)
    (h : SizesInv b) : SizesInv ((loop_body lib K b).next_head lib) := by
  obtain ⟨h1, h2, h3, h4⟩ := h
  by_cases hc : b.timestep_number = 1 ∧ b.pre_refinement_step < K
  · rw [loop_body_goto lib K b hc]
    simp only [Outcome.next_head]
    refine ⟨?_, ?_, ?_, ?_⟩
    · simp [goto_state, body_until_output]
    · simp [goto_state, body_until_output]
    · simp [goto_state, body_until_output]
    · intro o ho
      simp [goto_state, body_until_output] at ho
      rcases ho with ho | ho | ho | ho | ho | ho | ho | ho | ho
      · exact h4 o ho
      all_goals (subst ho; simp [h1, h2, h3])
  · rw [loop_body_advance lib K b hc]
    have hst : (if b.time + b.time_step ≤ 1.0 then Outcome.continue_loop (advance_state lib K b)
        else Outcome.finished (advance_state lib K b)).next_head lib = advance_state lib K b := by
      split_ifs <;> rfl
    rw [hst]
    refine ⟨?_, ?_, ?_, ?_⟩
    · unfold advance_state body_until_output; split_ifs <;> simp [h1, h2, h3]
    · unfold advance_state body_until_output; split_ifs <;> simp [h1, h2, h3]
    · unfold advance_state body_until_output; split_ifs <;> simp [h1, h2, h3]
    · intro o ho
      unfold advance_state body_until_output at ho
      split_ifs at ho
      · simp at ho
        rcases ho with ho | ho | ho | ho | ho | ho | ho
        · exact h4 o ho
        all_goals (subst ho; simp [h1, h2, h3])
      · simp at ho
        rcases ho with ho | ho | ho | ho
        · exact h4 o ho
        all_goals (subst ho; simp [h1, h2, h3])

theorem lastPassInv_step (lib : Lib) (K c0 g0 : Nat) (b : Burger) (hlive : b.time ≤ 1.0)
    (h : LastPassInv K c0 g0 b) : LastPassInv K c0 g0 ((loop_body lib K b).next_head lib) := by
  obtain ⟨h1, h2, h4, j, hj, htime, hcount⟩ := h
  have hc : ¬ (b.timestep_number = 1 ∧ b.pre_refinement_step < K) := by
    intro h; omega
  rw [loop_body_advance lib K b hc]
  have hst : (if b.time + b.time_step ≤ 1.0 then Outcome.continue_loop (advance_state lib K b)
      else Outcome.finished (advance_state lib K b)).next_head lib = advance_state lib K b := by
    split_ifs <;> rfl
  rw [hst]
  have hj1 : j ≠ 500 := by
    intro h500
    rw [htime, h500] at hlive
    exact time_after_500.2 hlive
  refine ⟨by simpa using h1, by simpa using h2, ?_, j + 1, by omega, ?_, ?_⟩
  · unfold advance_state body_until_output; split_ifs <;> simp [h4]
  · rw [advance_state_time, htime, h2]; rfl
  · have : count_label Label.time_step (advance_state lib K b).trace
        = count_label Label.time_step b.trace + 1 := by
      unfold advance_state body_until_output; split_ifs <;> simp
    rw [this, hcount]; omega

/-! ## Theorems: local assembly -/

theorem foldl_add_range (f : Nat → ℚ) (n : Nat) :
    (List.range n).foldl (fun acc q => acc + f q) 0 = ∑ q in Finset.range n, f q := by
  induction n with
  | zero => simp
  | succ n ih => rw [List.range_succ, List.foldl_append, ih, Finset.sum_range_succ]; rfl

/-- C8: if the previous-step field evaluates to zero at every quadrature point of the cell,
the entry `cell_rhs(i)` computed by `assemble_system_2` is the forcing contribution alone:
the sum over the quadrature points `q` of `dt * (f(x_q, t) . phi_i(x_q)) * JxW(q)`. -/
theorem C8_rhs_forcing_only (fe : FEValues) (time_step : ℚ) (time : Double)
    (old_values : Nat → Tensor1) (i : Nat)
    (hzero : ∀ q, q < fe.n_q_points → old_values q = ⟨0, 0⟩) :
    cell_rhs fe time_step time old_values i
      = ∑ q in Finset.range fe.n_q_points,
          time_step
            * (Tensor1.dot ⟨((RightHandSide.new time).value (fe.quadrature_point q) 0).toRat,
                            ((RightHandSide.new time).value (fe.quadrature_point q) 1).toRat⟩
                (fe.value i q))
            * fe.JxW q := by
  unfold cell_rhs
  simp only []
  rw [foldl_add_range]
  refine Finset.sum_congr rfl (fun q hq => ?_)
  rw [hzero q (Finset.mem_range.mp hq)]
  simp [Tensor1.dot, rhs_val]

/-- Witness of C8 on a cell with two quadrature points. -/
theorem C8_rhs_forcing_only_witness :
    (∀ q, q < fe_example.n_q_points → (fun _ : Nat => (⟨0, 0⟩ : Tensor1)) q = ⟨0, 0⟩)
    ∧ cell_rhs fe_example (1 / 500) 0 (fun _ => ⟨0, 0⟩) 0
      = ∑ q in Finset.range fe_example.n_q_points,
          (1 / 500 : ℚ)
            * (Tensor1.dot ⟨((RightHandSide.new 0).value (fe_example.quadrature_point q) 0).toRat,
                            ((RightHandSide.new 0).value (fe_example.quadrature_point q) 1).toRat⟩
                (fe_example.value 0 q))
            * fe_example.JxW q :=
  ⟨fun _ _ => rfl, C8_rhs_forcing_only fe_example (1 / 500) 0 (fun _ => ⟨0, 0⟩) 0 (fun _ _ => rfl)⟩

/-! ## Theorems: the clamp of `refine_grid` -/

theorem le_foldr_max (l : List Nat) (x : Nat) (hx : x ∈ l) : x ≤ l.foldr max 0 := by
  induction l with
  | nil => simp at hx
  | cons y l ih =>
    rcases List.mem_cons.mp hx with h | h
    · subst h; exact le_max_left _ _
    · exact le_trans (ih h) (le_max_right _ _)

theorem Cell.level_le_max_level (c : Cell) :
    ∀ (lvl : Nat) (a : ActiveCell), a ∈ c.active_cells lvl → a.level ≤ c.max_level lvl := by
  induction c with
  | active r f =>
    intro lvl a ha
    simp only [Cell.active_cells, List.mem_singleton] at ha
    subst ha; simp [Cell.max_level]
  | refined c0 c1 c2 c3 ih0 ih1 ih2 ih3 =>
    intro lvl a ha
    simp only [Cell.active_cells, List.mem_append] at ha
    simp only [Cell.max_level]
    rcases ha with ((h | h) | h) | h
    · exact le_trans (ih0 _ _ h) (le_trans (le_max_left _ _) (le_max_left _ _))
    · exact le_trans (ih1 _ _ h) (le_trans (le_max_right _ _) (le_max_left _ _))
    · exact le_trans (ih2 _ _ h) (le_trans (le_max_left _ _) (le_max_right _ _))
    · exact le_trans (ih3 _ _ h) (le_trans (le_max_right _ _) (le_max_right _ _))

theorem Triangulation.active_level_le_max_level (t : Triangulation) (a : ActiveCell)
    (ha : a ∈ t.active_cells) : a.level ≤ t.max_level := by
  simp only [Triangulation.active_cells, List.mem_flatMap] at ha
  obtain ⟨c, hc, hac⟩ := ha
  exact le_trans (Cell.level_le_max_level c 0 a hac)
    (le_foldr_max _ _ (List.mem_map_of_mem _ hc))

theorem Cell.mem_clear_refine_flag_from (m : Nat) (c : Cell) :
    ∀ (lvl : Nat) (a : ActiveCell), a ∈ (c.clear_refine_flag_from m lvl).active_cells lvl →
      ∃ a0 ∈ c.active_cells lvl, a.level = a0.level ∧ a.coarsen_flag = a0.coarsen_flag
        ∧ a.refine_flag = (if m ≤ a0.level then false else a0.refine_flag) := by
  induction c with
  | active r f =>
    intro lvl a ha
    simp only [Cell.clear_refine_flag_from, Cell.active_cells, List.mem_singleton] at ha
    subst ha
    exact ⟨⟨lvl, r, f⟩, by simp [Cell.active_cells], rfl, rfl, rfl⟩
  | refined c0 c1 c2 c3 ih0 ih1 ih2 ih3 =>
    intro lvl a ha
    simp only [Cell.clear_refine_flag_from, Cell.active_cells, List.mem_append] at ha
    simp only [Cell.active_cells, List.mem_append]
    rcases ha with ((h | h) | h) | h
    · obtain ⟨a0, h0, hr⟩ := ih0 _ _ h; exact ⟨a0, Or.inl (Or.inl (Or.inl h0)), hr⟩
    · obtain ⟨a0, h0, hr⟩ := ih1 _ _ h; exact ⟨a0, Or.inl (Or.inl (Or.inr h0)), hr⟩
    · obtain ⟨a0, h0, hr⟩ := ih2 _ _ h; exact ⟨a0, Or.inl (Or.inr h0), hr⟩
    · obtain ⟨a0, h0, hr⟩ := ih3 _ _ h; exact ⟨a0, Or.inr h0, hr⟩

theorem Cell.mem_clear_coarsen_flag_at (m : Nat) (c : Cell) :
    ∀ (lvl : Nat) (a : ActiveCell), a ∈ (c.clear_coarsen_flag_at m lvl).active_cells lvl →
      ∃ a0 ∈ c.active_cells lvl, a.level = a0.level ∧ a.refine_flag = a0.refine_flag
        ∧ a.coarsen_flag = (if a0.level = m then false else a0.coarsen_flag) := by
  induction c with
  | active r f =>
    intro lvl a ha
    simp only [Cell.clear_coarsen_flag_at, Cell.active_cells, List.mem_singleton] at ha
    subst ha
    exact ⟨⟨lvl, r, f⟩, by simp [Cell.active_cells], rfl, rfl, rfl⟩
  | refined c0 c1 c2 c3 ih0 ih1 ih2 ih3 =>
    intro lvl a ha
    simp only [Cell.clear_coarsen_flag_at, Cell.active_cells, List.mem_append] at ha
    simp only [Cell.active_cells, List.mem_append]
    rcases ha with ((h | h) | h) | h
    · obtain ⟨a0, h0, hr⟩ := ih0 _ _ h; exact ⟨a0, Or.inl (Or.inl (Or.inl h0)), hr⟩
    · obtain ⟨a0, h0, hr⟩ := ih1 _ _ h; exact ⟨a0, Or.inl (Or.inl (Or.inr h0)), hr⟩
    · obtain ⟨a0, h0, hr⟩ := ih2 _ _ h; exact ⟨a0, Or.inl (Or.inr h0), hr⟩
    · obtain ⟨a0, h0, hr⟩ := ih3 _ _ h; exact ⟨a0, Or.inr h0, hr⟩

theorem Cell.level_le_of_execute (M : Nat) (c : Cell) :
    ∀ (lvl : Nat),
      (∀ a ∈ c.active_cells lvl, a.level ≤ M ∧ (M ≤ a.level → a.refine_flag = false)) →
      ∀ a ∈ c.execute.active_cells lvl, a.level ≤ M := by
  induction c with
  | active r f =>
    intro lvl h a ha
    have h0 := h ⟨lvl, r, f⟩ (by simp [Cell.active_cells])
    simp only at h0
    cases r with
    | false =>
      simp only [Cell.execute, Cell.active_cells, List.mem_singleton] at ha
      subst ha; exact h0.1
    | true =>
      have hlt : lvl < M := by
        by_contra hcon
        have := h0.2 (Nat.le_of_not_lt hcon)
        simp at this
      simp [Cell.execute, Cell.active_cells] at ha
      subst ha; exact hlt
  | refined c0 c1 c2 c3 ih0 ih1 ih2 ih3 =>
    intro lvl h a ha
    simp only [Cell.active_cells, List.mem_append] at h
    by_cases hw : (c0.wants_coarsening && c1.wants_coarsening && c2.wants_coarsening
        && c3.wants_coarsening) = true
    · simp only [Cell.execute, hw, if_true, Cell.active_cells, List.mem_singleton] at ha
      subst ha
      simp only [Bool.and_eq_true] at hw
      cases c0 with
      | active r f =>
        have := (h ⟨lvl + 1, r, f⟩ (by simp [Cell.active_cells])).1
        simp only at this ⊢; omega
      | refined _ _ _ _ => simp [Cell.wants_coarsening] at hw
    · simp only [Cell.execute, hw, Cell.active_cells, List.mem_append] at ha
      rcases ha with ((h1 | h1) | h1) | h1
      · exact ih0 _ (fun b hb => h b (Or.inl (Or.inl (Or.inl hb)))) a h1
      · exact ih1 _ (fun b hb => h b (Or.inl (Or.inl (Or.inr hb)))) a h1
      · exact ih2 _ (fun b hb => h b (Or.inl (Or.inr hb))) a h1
      · exact ih3 _ (fun b hb => h b (Or.inr hb)) a h1

theorem clamp_flags_active (mn mx : Nat) (t : Triangulation) (hlev : t.n_levels = 1 + t.max_level)
    (a : ActiveCell) (ha : a ∈ (clamp_flags mn mx t).active_cells) :
    ∃ a0 ∈ t.active_cells, a.level = a0.level ∧ (mx ≤ a.level → a.refine_flag = false)
      ∧ (a.level = mn → a.coarsen_flag = false) := by
  simp only [clamp_flags, Triangulation.active_cells, List.mem_flatMap, List.mem_map] at ha
  obtain ⟨c, ⟨c1, hc1, rfl⟩, hac⟩ := ha
  obtain ⟨a1, ha1, hl1, hr1, hf1⟩ := Cell.mem_clear_coarsen_flag_at mn c1 0 a hac
  by_cases hn : t.n_levels > mx
  · simp only [hn, if_true, List.mem_map] at hc1
    obtain ⟨c0, hc0, rfl⟩ := hc1
    obtain ⟨a0, ha0, hl0, hf0, hr0⟩ := Cell.mem_clear_refine_flag_from mx c0 0 a1 ha1
    refine ⟨a0, ?_, by rw [hl1, hl0], ?_, ?_⟩
    · simp only [Triangulation.active_cells, List.mem_flatMap]; exact ⟨c0, hc0, ha0⟩
    · intro hle
      rw [hr1, hr0, if_pos]
      rw [← hl0, ← hl1]; exact hle
    · intro he
      rw [hf1, if_pos]; rw [← hl1]; exact he
  · simp only [hn, if_false] at hc1
    have hmem : a1 ∈ t.active_cells := by
      simp only [Triangulation.active_cells, List.mem_flatMap]; exact ⟨c1, hc1, ha1⟩
    refine ⟨a1, hmem, hl1, ?_, ?_⟩
    · intro hle
      have := Triangulation.active_level_le_max_level t a1 hmem
      omega
    · intro he
      rw [hf1, if_pos]; rw [← hl1]; exact he

/-- C6: for every marked mesh whose `n_levels` is one more than the highest level of any
cell, after the clamp step of `refine_grid (min_grid_level, max_grid_level)` and before the
refinement is executed, no active cell of level `≥ max_grid_level` carries a refine flag and
no active cell of level `min_grid_level` carries a coarsen flag; hence, if no active cell had
a level above `max_grid_level`, executing the flags leaves no active cell above it. -/
theorem C6_clamp_level_bounds (min_grid_level max_grid_level : Nat) (marked : Triangulation)
    (hlev : marked.n_levels = 1 + marked.max_level) :
    (∀ a ∈ (clamp_flags min_grid_level max_grid_level marked).active_cells,
        max_grid_level ≤ a.level → a.refine_flag = false)
    ∧ (∀ a ∈ (clamp_flags min_grid_level max_grid_level marked).active_cells,
        a.level = min_grid_level → a.coarsen_flag = false)
    ∧ ((∀ a ∈ marked.active_cells, a.level ≤ max_grid_level) →
        ∀ a ∈ (Triangulation.execute_coarsening_and_refinement
                  (clamp_flags min_grid_level max_grid_level marked)).active_cells,
          a.level ≤ max_grid_level) := by
  refine ⟨?_, ?_, ?_⟩
  · intro a ha
    obtain ⟨_, _, _, h, _⟩ := clamp_flags_active min_grid_level max_grid_level marked hlev a ha
    exact h
  · intro a ha
    obtain ⟨_, _, _, _, h⟩ := clamp_flags_active min_grid_level max_grid_level marked hlev a ha
    exact h
  · intro hle a ha
    simp only [Triangulation.execute_coarsening_and_refinement, Triangulation.active_cells,
      List.mem_flatMap, List.mem_map] at ha
    obtain ⟨c, ⟨c0, hc0, rfl⟩, hac⟩ := ha
    refine Cell.level_le_of_execute max_grid_level c0 0 ?_ a hac
    intro b hb
    have hb' : b ∈ (clamp_flags min_grid_level max_grid_level marked).active_cells := by
      simp only [Triangulation.active_cells, List.mem_flatMap]; exact ⟨c0, hc0, hb⟩
    obtain ⟨b0, hb0, hl, hr, _⟩ :=
      clamp_flags_active min_grid_level max_grid_level marked hlev b hb'
    exact ⟨by rw [hl]; exact hle b0 hb0, hr⟩

/-- Witness of C6 on a mesh with cells on three levels, `min_grid_level = 1` and
`max_grid_level = 2`. -/
theorem C6_clamp_level_bounds_witness :
    mesh_example.n_levels = 1 + mesh_example.max_level
    ∧ (∀ a ∈ (clamp_flags 1 2 mesh_example).active_cells, 2 ≤ a.level → a.refine_flag = false)
    ∧ (∀ a ∈ (clamp_flags 1 2 mesh_example).active_cells, a.level = 1 → a.coarsen_flag = false)
    ∧ ((∀ a ∈ mesh_example.active_cells, a.level ≤ 2) →
        ∀ a ∈ (Triangulation.execute_coarsening_and_refinement
                  (clamp_flags 1 2 mesh_example)).active_cells,
          a.level ≤ 2) :=
  ⟨by decide, C6_clamp_level_bounds 1 2 mesh_example (by decide)⟩

/-! ## Theorems: `main` -/

/-- C10: `main` returns `0` exactly when `run` completes normally; it returns the nonzero
status `1` both when `run` raises a recognised `std::exception` and when it raises anything
else, and what it reports to `std::cerr` differs between these two failure cases. -/
theorem C10_main_exit_status (o : RunOutcome) :
    ((main o).status = 0 ↔ o = RunOutcome.completed)
    ∧ (∀ what, (main (RunOutcome.std_exception what)).status = 1)
    ∧ (main RunOutcome.unknown_exception).status = 1
    ∧ (1 : Int) ≠ 0
    ∧ (∀ what, (main (RunOutcome.std_exception what)).cerr
          ≠ (main RunOutcome.unknown_exception).cerr)
    ∧ (∀ what, "Exception on processing: " ∈ (main (RunOutcome.std_exception what)).cerr)
    ∧ "Unknown exception!" ∈ (main RunOutcome.unknown_exception).cerr
    ∧ (main RunOutcome.completed).cerr = [] := by
  refine ⟨?_, fun _ => rfl, rfl, by decide, ?_, ?_, ?_, rfl⟩
  · cases o <;> simp [main]
  · intro what h
    have := congrArg List.length h
    simp [main] at this
  · intro what; simp [main]
  · simp [main]

/-! ## Theorems: the run -/

theorem run_eq (lib : Lib) (K fuel : Nat) :
    run lib K fuel = time_loop lib K fuel (run_head lib) := rfl

theorem run_head_facts (lib : Lib) :
    (run_head lib).pre_refinement_step = 0 ∧ (run_head lib).time_step = 1 / 500
      ∧ (run_head lib).time = 0 ∧ (run_head lib).timestep_number = 0 :=
  ⟨rfl, rfl, rfl, rfl⟩

theorem run_head_trace (lib : Lib) :
    (run_head lib).trace
      = [{ label := Label.setup_system, timestep_number := 0, time := 0
           pre_refinement_step := 0
           n_dofs := lib.distribute_dofs (make_grid Burger.new).triangulation
           solution_size := lib.distribute_dofs (make_grid Burger.new).triangulation
           old_solution_size := lib.distribute_dofs (make_grid Burger.new).triangulation
           old_old_solution_size := lib.distribute_dofs (make_grid Burger.new).triangulation },
         { label := Label.start_time_iteration, timestep_number := 0, time := 0
           pre_refinement_step := 0
           n_dofs := lib.distribute_dofs (make_grid Burger.new).triangulation
           solution_size := lib.distribute_dofs (make_grid Burger.new).triangulation
           old_solution_size := lib.distribute_dofs (make_grid Burger.new).triangulation
           old_old_solution_size := lib.distribute_dofs (make_grid Burger.new).triangulation },
         { label := Label.output_results, timestep_number := 0, time := 0
           pre_refinement_step := 0
           n_dofs := lib.distribute_dofs (make_grid Burger.new).triangulation
           solution_size := lib.distribute_dofs (make_grid Burger.new).triangulation
           old_solution_size := lib.distribute_dofs (make_grid Burger.new).triangulation
           old_old_solution_size := lib.distribute_dofs (make_grid Burger.new).triangulation }] := by
  unfold run_head
  rw [start_time_iteration_trace]
  simp
  rfl

theorem run_head_restartInv (lib : Lib) (K : Nat) : RestartInv K (run_head lib) := by
  refine ⟨?_, ?_, ?_, ?_, ?_⟩
  · rw [run_head_trace]; simp [(run_head_facts lib).1]
  · rw [(run_head_facts lib).1]; exact Nat.zero_le _
  · rw [run_head_trace]; simp [(run_head_facts lib).1]
  · rw [run_head_trace]; intro o ho hl
    simp at ho
    rcases ho with ho | ho | ho <;> (subst ho; simp at hl ⊢)
  · rw [run_head_trace]; intro o ho hl
    simp at ho
    rcases ho with ho | ho | ho <;> (subst ho; simp at hl ⊢)

theorem run_head_sizesInv (lib : Lib) : SizesInv (run_head lib) := by
  refine ⟨?_, ?_, ?_, ?_⟩
  · simp [run_head]
  · simp [run_head]
  · simp [run_head]
  · rw [run_head_trace]; intro o ho
    simp at ho
    rcases ho with ho | ho | ho <;> (subst ho; simp)

theorem occursInv_step (lib : Lib) (K : Nat) (b : Burger)
    (h : OccursInv b) : OccursInv ((loop_body lib K b).next_head lib) := by
  obtain ⟨h1, h2, _⟩ := h
  by_cases hc : b.timestep_number = 1 ∧ b.pre_refinement_step < K
  · rw [loop_body_goto lib K b hc]
    simp only [Outcome.next_head]
    refine ⟨?_, ?_, Or.inl rfl⟩
    · simp [goto_state, body_until_output]
    · simp [goto_state, body_until_output]
  · rw [loop_body_advance lib K b hc]
    have hst : (if b.time + b.time_step ≤ 1.0 then Outcome.continue_loop (advance_state lib K b)
        else Outcome.finished (advance_state lib K b)).next_head lib = advance_state lib K b := by
      split_ifs <;> rfl
    rw [hst]
    refine ⟨?_, ?_, Or.inr ?_⟩
    · unfold advance_state body_until_output; split_ifs <;> simp
      all_goals omega
    · unfold advance_state body_until_output; split_ifs <;> (simp; omega)
    · unfold advance_state body_until_output; split_ifs <;> simp

/-- C3: with horizon 1.0, `dt = 1. / 500` and no restart cutting the pass short (the budget
is used up: in particular budget 0, or the final pass), the `do ... while` loop of `run`
started at time 0 ends, and it has executed its body exactly `500 = ceil (1.0/dt)` times:
after the 500th execution the accumulated time is `1.0000000000000007` and the inclusive
test `time <= 1.0` fails. -/
theorem C3_last_pass_body_count (lib : Lib) (K fuel : Nat) (b : Burger)
    (hK : K ≤ b.pre_refinement_step) (hdt : b.time_step = 1 / 500) (ht : b.time = 0)
    (hfuel : 500 ≤ fuel) :
    ∃ b1, time_loop lib K fuel b = some b1
      ∧ count_label Label.time_step b1.trace = count_label Label.time_step b.trace + 500
      ∧ count_label Label.goto_start b1.trace = count_label Label.goto_start b.trace
      ∧ b1.time = Double.finite (4503599627370499 / 4503599627370496)
      ∧ ¬ (b1.time ≤ 1.0)
      ∧ Nat.ceil ((1.0 : Double).toRat / b.time_step.toRat) = 500 := by
  obtain ⟨extra, rfl⟩ := Nat.exists_eq_add_of_le hfuel
  obtain ⟨b1, hb1, _, htime⟩ := time_loop_last_pass lib K 500 0 b hK hdt ht
    (by norm_num) (by norm_num) extra
  have hinv := time_loop_invariant_live lib K
    (LastPassInv K (count_label Label.time_step b.trace) (count_label Label.goto_start b.trace))
    (lastPassInv_step lib K _ _) _ b b1 (by rw [ht]; decide!)
    ⟨hK, hdt, rfl, 0, by omega, ht, rfl⟩ hb1
  obtain ⟨⟨_, _, hgoto, j, hj, hjt, hcount⟩, hnot⟩ := hinv
  have hj500 : j = 500 := by
    by_contra hne
    exact hnot (by rw [hjt]; exact time_after_le j (by omega))
  refine ⟨b1, hb1, by rw [hcount, hj500], hgoto, by rw [htime, time_after_500.1], hnot, ?_⟩
  have h1 : (1.0 : Double).toRat = 1 := by decide!
  have h2 : ((1 / 500 : Double)).toRat = 1152921504606847 / 576460752303423488 := by decide!
  rw [hdt, h1, h2, Nat.ceil_eq_iff (by norm_num)]
  constructor <;> norm_num

/-- Witness of C3 for the first pass of a run with budget 0. -/
theorem C3_last_pass_body_count_witness :
    0 ≤ (run_head zero_lib).pre_refinement_step ∧ (run_head zero_lib).time_step = 1 / 500
    ∧ (run_head zero_lib).time = 0 ∧ 500 ≤ 500
    ∧ ∃ b1, time_loop zero_lib 0 500 (run_head zero_lib) = some b1
      ∧ count_label Label.time_step b1.trace
          = count_label Label.time_step (run_head zero_lib).trace + 500
      ∧ count_label Label.goto_start b1.trace
          = count_label Label.goto_start (run_head zero_lib).trace
      ∧ b1.time = Double.finite (4503599627370499 / 4503599627370496)
      ∧ ¬ (b1.time ≤ 1.0)
      ∧ Nat.ceil ((1.0 : Double).toRat / (run_head zero_lib).time_step.toRat) = 500 :=
  ⟨Nat.zero_le _, rfl, rfl, le_refl _,
    C3_last_pass_body_count zero_lib 0 500 (run_head zero_lib) (Nat.zero_le _) rfl rfl
      (le_refl _)⟩

/-- C4: in a complete run with pre-refinement budget `K` (4 in the source), whatever the
library does, `run` ends and the jump back to `start_time_iteration` has been taken exactly
`K` times; each jump was taken at timestep index 1; the label is passed `K + 1` times
(once at the beginning and once after each jump), every time with the time and the timestep
index reset to 0.  The loop body jumps only at timestep index 1 with budget left, so that
no restart occurs once `K` jumps are made. -/
theorem C4_restart_exactly_budget (lib : Lib) (K fuel : Nat) (hK : K < 2 ^ 32)
    (hfuel : 2 * K + 501 ≤ fuel) :
    (∃ b1, run lib K fuel = some b1
      ∧ b1.pre_refinement_step = K
      ∧ count_label Label.goto_start b1.trace = K
      ∧ (∀ o ∈ b1.trace, o.label = Label.goto_start → o.timestep_number = 1)
      ∧ count_label Label.start_time_iteration b1.trace = K + 1
      ∧ (∀ o ∈ b1.trace, o.label = Label.start_time_iteration →
            o.time = 0 ∧ o.timestep_number = 0))
    ∧ (∀ b b2 : Burger, loop_body lib K b = Outcome.goto_start b2 →
          b.timestep_number = 1 ∧ b.pre_refinement_step < K
          ∧ (start_time_iteration lib b2).time = 0
          ∧ (start_time_iteration lib b2).timestep_number = 0)
    ∧ (∀ b b2 : Burger, K ≤ b.pre_refinement_step →
          loop_body lib K b ≠ Outcome.goto_start b2) := by
  refine ⟨?_, ?_, ?_⟩
  · obtain ⟨extra, rfl⟩ := Nat.exists_eq_add_of_le hfuel
    obtain ⟨hp, hdt, ht, hts⟩ := run_head_facts lib
    have hf : 2 * K + 501 + extra = 2 * K + 500 + (extra + 1) := by omega
    rw [hf]
    obtain ⟨b1, hb1, hpre, _⟩ := time_loop_terminates lib K hK K (run_head lib)
      (by rw [hp]; omega) hdt ht hts (extra + 1)
    have hinv := time_loop_invariant lib K (RestartInv K) (restartInv_step lib K hK)
      _ _ b1 (run_head_restartInv lib K) hb1
    obtain ⟨h1, _, h3, h4, h5⟩ := hinv
    refine ⟨b1, by rw [run_eq]; exact hb1, hpre, by rw [h1, hpre], h4, by rw [h3, hpre], h5⟩
  · intro b b2 h
    by_cases hc : b.timestep_number = 1 ∧ b.pre_refinement_step < K
    · exact ⟨hc.1, hc.2, rfl, rfl⟩
    · rw [loop_body_advance lib K b hc] at h
      split_ifs at h
  · intro b b2 hle h
    have hc : ¬ (b.timestep_number = 1 ∧ b.pre_refinement_step < K) := by
      intro h; omega
    rw [loop_body_advance lib K b hc] at h
    split_ifs at h

/-- Witness of C4 for the budget 4 of the source. -/
theorem C4_restart_exactly_budget_witness :
    (4 < 2 ^ 32 ∧ 2 * 4 + 501 ≤ 509)
    ∧ (∃ b1, run zero_lib 4 509 = some b1
      ∧ b1.pre_refinement_step = 4
      ∧ count_label Label.goto_start b1.trace = 4
      ∧ (∀ o ∈ b1.trace, o.label = Label.goto_start → o.timestep_number = 1)
      ∧ count_label Label.start_time_iteration b1.trace = 4 + 1
      ∧ (∀ o ∈ b1.trace, o.label = Label.start_time_iteration →
            o.time = 0 ∧ o.timestep_number = 0)) :=
  ⟨⟨by norm_num, by norm_num⟩,
    (C4_restart_exactly_budget zero_lib 4 509 (by norm_num) (by norm_num)).1⟩

/-- C5: once the pre-refinement budget is used up, an execution of the loop body calls
`refine_grid` if and only if its timestep index is a positive multiple of 5 (it calls it
once then, and not at all otherwise); it does not jump back, so that neither time nor the
timestep index is reset: the time after it is the time before plus `dt`, and the timestep
index has grown by one. -/
theorem C5_steady_refinement (lib : Lib) (K : Nat) (b : Burger)
    (hK : K ≤ b.pre_refinement_step) (hts : b.timestep_number + 1 < 2 ^ 32) :
    (loop_body lib K b = Outcome.continue_loop (loop_body lib K b).state
      ∨ loop_body lib K b = Outcome.finished (loop_body lib K b).state)
    ∧ (loop_body lib K b).state.time = b.time + b.time_step
    ∧ (loop_body lib K b).state.timestep_number = b.timestep_number + 1
    ∧ count_label Label.refine_grid (loop_body lib K b).state.trace
        = count_label Label.refine_grid b.trace
          + (if 0 < b.timestep_number ∧ b.timestep_number % 5 = 0 then 1 else 0)
    ∧ ((∃ o ∈ (loop_body lib K b).state.trace.drop b.trace.length,
          o.label = Label.refine_grid) ↔ (0 < b.timestep_number ∧ b.timestep_number % 5 = 0))
    ∧ count_label Label.goto_start (loop_body lib K b).state.trace
        = count_label Label.goto_start b.trace
    ∧ count_label Label.start_time_iteration (loop_body lib K b).state.trace
        = count_label Label.start_time_iteration b.trace := by
  have hc : ¬ (b.timestep_number = 1 ∧ b.pre_refinement_step < K) := by
    intro h; omega
  have hst : (loop_body lib K b).state = advance_state lib K b := by
    rw [loop_body_advance lib K b hc]; split_ifs <;> rfl
  rw [hst]
  refine ⟨?_, by simp, ?_, ?_, ?_, ?_, ?_⟩
  · rw [loop_body_advance lib K b hc]; split_ifs
    · exact Or.inl rfl
    · exact Or.inr rfl
  · rw [advance_state_timestep_number]; exact Nat.mod_eq_of_lt hts
  · unfold advance_state body_until_output; split_ifs with h5 <;> simp
  · unfold advance_state body_until_output; split_ifs with h5
    · simp [h5]
    · simp [h5]
  · unfold advance_state body_until_output; split_ifs <;> simp
  · unfold advance_state body_until_output; split_ifs <;> simp

/-- Witness of C5 at timestep index 5 with the budget of 4 used up. -/
theorem C5_steady_refinement_witness :
    (4 ≤ steady_example.pre_refinement_step ∧ steady_example.timestep_number + 1 < 2 ^ 32)
    ∧ (loop_body zero_lib 4 steady_example).state.time
        = steady_example.time + steady_example.time_step
    ∧ (loop_body zero_lib 4 steady_example).state.timestep_number
        = steady_example.timestep_number + 1
    ∧ count_label Label.refine_grid (loop_body zero_lib 4 steady_example).state.trace
        = count_label Label.refine_grid steady_example.trace
          + (if 0 < steady_example.timestep_number ∧ steady_example.timestep_number % 5 = 0
              then 1 else 0) :=
  ⟨⟨le_refl _, by norm_num [steady_example]⟩,
    (C5_steady_refinement zero_lib 4 steady_example (le_refl _)
      (by norm_num [steady_example])).2.1,
    (C5_steady_refinement zero_lib 4 steady_example (le_refl _)
      (by norm_num [steady_example])).2.2.1,
    (C5_steady_refinement zero_lib 4 steady_example (le_refl _)
      (by norm_num [steady_example])).2.2.2.1⟩

/-- C7: in a complete run, at every place where the driver state is recorded (after
`setup_system`, after the `reinit` calls that follow each `refine_grid`, at and after each
restart initialisation, after each history rotation, and at the other recorded places),
the sizes of `solution`, `old_solution` and `old_old_solution` all equal the unknown count
`dof_handler.n_dofs()` of that moment; `setup_system` and `refine_grid` followed by the
`reinit` calls establish this from any state. -/
theorem C7_buffer_sizes (lib : Lib) (K fuel : Nat) (hK : K < 2 ^ 32)
    (hfuel : 2 * K + 501 ≤ fuel) :
    (∃ b1, run lib K fuel = some b1
      ∧ (∀ o ∈ b1.trace, o.solution_size = o.n_dofs ∧ o.old_solution_size = o.n_dofs
            ∧ o.old_old_solution_size = o.n_dofs)
      ∧ 0 < count_label Label.setup_system b1.trace
      ∧ 0 < count_label Label.start_time_iteration b1.trace
      ∧ 0 < count_label Label.rotated b1.trace)
    ∧ (∀ b : Burger, (setup_system lib b).solution.length = (setup_system lib b).n_dofs
          ∧ (setup_system lib b).old_solution.length = (setup_system lib b).n_dofs
          ∧ (setup_system lib b).old_old_solution.length = (setup_system lib b).n_dofs)
    ∧ (∀ (b : Burger) (mn mx : Nat),
          (reinit_after_refine (refine_grid lib mn mx b)).solution.length
            = (reinit_after_refine (refine_grid lib mn mx b)).n_dofs
          ∧ (reinit_after_refine (refine_grid lib mn mx b)).old_solution.length
            = (reinit_after_refine (refine_grid lib mn mx b)).n_dofs
          ∧ (reinit_after_refine (refine_grid lib mn mx b)).old_old_solution.length
            = (reinit_after_refine (refine_grid lib mn mx b)).n_dofs) := by
  refine ⟨?_, fun b => by simp, fun b mn mx => by simp⟩
  obtain ⟨extra, rfl⟩ := Nat.exists_eq_add_of_le hfuel
  obtain ⟨hp, hdt, ht, hts⟩ := run_head_facts lib
  have hf : 2 * K + 501 + extra = 2 * K + 500 + (extra + 1) := by omega
  rw [hf]
  obtain ⟨b1, hb1, _, hb1time⟩ := time_loop_terminates lib K hK K (run_head lib)
    (by rw [hp]; omega) hdt ht hts (extra + 1)
  have hinv := time_loop_invariant lib K SizesInv (sizesInv_step lib K)
    _ _ b1 (run_head_sizesInv lib) hb1
  have hpos := time_loop_invariant lib K OccursInv (occursInv_step lib K)
    _ _ b1 (by unfold OccursInv; rw [run_head_trace]; simp [ht]) hb1
  obtain ⟨hp1, hp2, hp3⟩ := hpos
  refine ⟨b1, by rw [run_eq]; exact hb1, hinv.2.2.2, hp1, hp2, ?_⟩
  rcases hp3 with h | h
  · rw [hb1time, time_after_500.1] at h
    exact absurd h (by decide!)
  · exact h

/-- Witness of C7 for the budget 4 of the source. -/
theorem C7_buffer_sizes_witness :
    (4 < 2 ^ 32 ∧ 2 * 4 + 501 ≤ 509)
    ∧ ∃ b1, run zero_lib 4 509 = some b1
      ∧ (∀ o ∈ b1.trace, o.solution_size = o.n_dofs ∧ o.old_solution_size = o.n_dofs
            ∧ o.old_old_solution_size = o.n_dofs)
      ∧ 0 < count_label Label.setup_system b1.trace
      ∧ 0 < count_label Label.start_time_iteration b1.trace
      ∧ 0 < count_label Label.rotated b1.trace :=
  ⟨⟨by norm_num, by norm_num⟩,
    (C7_buffer_sizes zero_lib 4 509 (by norm_num) (by norm_num)).1⟩

/-! ## Theorems: the local matrix, the history rotation and the advection operator -/

/-- C11: for every cell and every pair of local basis indices `(i, j)`, the entry of
`cell_matrix` computed by `assemble_system_2` is the sum over the quadrature points `q` of
`[phi_i.phi_j + dt * contract3 (u*, grad phi_i, phi_j) + 0.5 * dt * div(u*) * (phi_i.phi_j)
+ dt * nu * (grad phi_i : grad phi_j)] * JxW(q)` with `nu = 1`, where `u*` and `div(u*)` are
the value and the divergence of `old_solution` at `x_q`; the entry is the same for every
`old_old_solution`. -/
theorem C11_cell_matrix_entry (fe : FEValues) (fv : FEFunctionValues) (time_step : ℚ)
    (old_solution old_old_solution : List ℚ) (i j : Nat) :
    assemble_cell_matrix fe fv time_step Burger.new.nu old_solution old_old_solution i j
      = ∑ q in Finset.range fe.n_q_points,
          ((fe.value i q).dot (fe.value j q)
            + time_step
                * contract3 (fv.get_function_values old_solution q) (fe.gradient i q)
                    (fe.value j q)
            + 0.5 * time_step * fv.get_function_divergences old_solution q
                * ((fe.value i q).dot (fe.value j q))
            + time_step * 1 * double_contract (fe.gradient i q) (fe.gradient j q))
          * fe.JxW q
    ∧ ∀ other : List ℚ,
        assemble_cell_matrix fe fv time_step Burger.new.nu old_solution other i j
          = assemble_cell_matrix fe fv time_step Burger.new.nu old_solution old_old_solution
              i j := by
  refine ⟨?_, fun _ => rfl⟩
  unfold assemble_cell_matrix cell_matrix
  simp only []
  rw [foldl_add_range]
  refine Finset.sum_congr rfl (fun q _ => ?_)
  have hnu : Burger.new.nu = 1 := by norm_num [Burger.new]
  rw [hnu]; ring

/-- C12: the history rotation that closes the loop body sets `old_old_solution` to the
former `old_solution`, sets `old_solution` to the former `solution`, and leaves `solution`
as the zero vector of unchanged length; time and the timestep index are not changed. -/
theorem C12_history_rotation (b : Burger) :
    (rotate_history b).old_old_solution = b.old_solution
    ∧ (rotate_history b).old_solution = b.solution
    ∧ (rotate_history b).solution = List.replicate b.solution.length 0
    ∧ (rotate_history b).solution.length = b.solution.length
    ∧ (∀ x ∈ (rotate_history b).solution, x = 0)
    ∧ (rotate_history b).time = b.time
    ∧ (rotate_history b).timestep_number = b.timestep_number := by
  refine ⟨rfl, rfl, rfl, by simp, ?_, rfl, rfl⟩
  intro x hx
  have : (rotate_history b).solution = List.replicate b.solution.length 0 := rfl
  rw [this] at hx
  exact List.eq_of_mem_replicate hx

/-- C14: with `theta_skew = 1/2`, the value set by the constructor,
`advection_cell_operator` changes sign when its trial and test arguments are exchanged, and
therefore vanishes when both are the same. -/
theorem C14_advection_antisymmetric (b : Burger) (htheta : b.theta_skew = 1 / 2)
    (u_val v_val : ℚ) (u_grad v_grad beta : Tensor1) :
    advection_cell_operator b u_val v_val u_grad v_grad beta
      = - advection_cell_operator b v_val u_val v_grad u_grad beta
    ∧ advection_cell_operator b u_val u_val u_grad u_grad beta = 0 := by
  unfold advection_cell_operator
  rw [htheta]
  constructor <;> ring

/-- Witness of C14 for the freshly constructed solver. -/
theorem C14_advection_antisymmetric_witness :
    Burger.new.theta_skew = 1 / 2
    ∧ advection_cell_operator Burger.new 3 5 ⟨1, 2⟩ ⟨4, 7⟩ ⟨1, 1⟩
      = - advection_cell_operator Burger.new 5 3 ⟨4, 7⟩ ⟨1, 2⟩ ⟨1, 1⟩
    ∧ advection_cell_operator Burger.new 3 3 ⟨1, 2⟩ ⟨1, 2⟩ ⟨1, 1⟩ = 0 :=
  ⟨by norm_num [Burger.new],
    C14_advection_antisymmetric Burger.new (by norm_num [Burger.new]) 3 5 ⟨1, 2⟩ ⟨4, 7⟩ ⟨1, 1⟩⟩

/-! ## Theorems: the snapshot indices -/

@[simp] theorem snapshot_indices_nil : snapshot_indices [] = [] := rfl

@[simp] theorem snapshot_indices_append (s t : List Obs) :
    snapshot_indices (s ++ t) = snapshot_indices s ++ snapshot_indices t := by
  simp [snapshot_indices]

@[simp] theorem snapshot_indices_cons (o : Obs) (t : List Obs) :
    snapshot_indices (o :: t)
      = if o.label = Label.output_results then o.timestep_number :: snapshot_indices t
        else snapshot_indices t := by
  by_cases h : o.label = Label.output_results <;> simp [snapshot_indices, h]

theorem snapshot_indices_start (lib : Lib) (b : Burger) :
    snapshot_indices (start_time_iteration lib b).trace = snapshot_indices b.trace ++ [0] := by
  simp

theorem snapshot_indices_goto_state (lib : Lib) (K : Nat) (b : Burger) :
    snapshot_indices (goto_state lib K b).trace
      = snapshot_indices b.trace ++ [b.timestep_number] := by
  simp [goto_state, body_until_output]

theorem snapshot_indices_advance_state (lib : Lib) (K : Nat) (b : Burger) :
    snapshot_indices (advance_state lib K b).trace
      = snapshot_indices b.trace ++ [b.timestep_number] := by
  unfold advance_state body_until_output; split_ifs <;> simp

theorem snapshot_indices_loop_body (lib : Lib) (K : Nat) (b : Burger) :
    snapshot_indices (loop_body lib K b).state.trace
      = snapshot_indices b.trace ++ [b.timestep_number] := by
  by_cases hc : b.timestep_number = 1 ∧ b.pre_refinement_step < K
  · rw [loop_body_goto lib K b hc]; exact snapshot_indices_goto_state lib K b
  · rw [loop_body_advance lib K b hc]
    split_ifs <;> exact snapshot_indices_advance_state lib K b

theorem snapshotInv_step (lib : Lib) (K : Nat) (hK : K < 2 ^ 32) (b : Burger)
    (hlive : b.time ≤ 1.0) (h : SnapshotInv K b) :
    SnapshotInv K ((loop_body lib K b).next_head lib) := by
  obtain ⟨h1, hts, h2, h3, h4⟩ := h
  have hK1 : K < 4294967296 := by simpa using hK
  by_cases hc : b.timestep_number = 1 ∧ b.pre_refinement_step < K
  · rw [loop_body_goto lib K b hc]
    have hmod : (b.pre_refinement_step + 1) % 4294967296 = b.pre_refinement_step + 1 :=
      Nat.mod_eq_of_lt (by omega)
    simp only [Outcome.next_head]
    refine ⟨by simpa using h1, by simp, by simp; rfl, by simp [hmod]; omega, ?_⟩
    rw [snapshot_indices_start, snapshot_indices_goto_state, h4, hc.1]
    simp [hmod, restarted_passes, List.range_succ]
  · rw [loop_body_advance lib K b hc]
    have hst : (if b.time + b.time_step ≤ 1.0 then Outcome.continue_loop (advance_state lib K b)
        else Outcome.finished (advance_state lib K b)).next_head lib = advance_state lib K b := by
      split_ifs <;> rfl
    rw [hst]
    have hne : b.timestep_number ≠ 500 := by
      intro h500
      rw [h2, h500] at hlive
      exact time_after_500.2 hlive
    have hmod : (b.timestep_number + 1) % 2 ^ 32 = b.timestep_number + 1 :=
      Nat.mod_eq_of_lt (by omega)
    refine ⟨by simpa using h1, ?_, ?_, by simpa using h3, ?_⟩
    · rw [advance_state_timestep_number, hmod]; omega
    · rw [advance_state_timestep_number, advance_state_time, hmod, h1, h2]; rfl
    · rw [snapshot_indices_advance_state, advance_state_timestep_number,
        advance_state_pre_refinement_step, hmod, h4, List.range_succ]
      simp

theorem run_head_snapshotInv (lib : Lib) (K : Nat) : SnapshotInv K (run_head lib) := by
  obtain ⟨hp, hdt, ht, hts⟩ := run_head_facts lib
  refine ⟨hdt, by rw [hts]; omega, by rw [hts, ht]; rfl, by rw [hp]; exact Nat.zero_le _, ?_⟩
  rw [run_head_trace, hp, hts]
  simp [restarted_passes]

/-- C13: in every pass of `run` from `start_time_iteration`, the snapshot written during the
initialisation and the snapshot written by the first execution of the loop body both carry
the timestep index 0, hence the same file name `solution-000.vtk`; the indices of the
snapshots of a pass are 0, 0, 1, 2, ...: in a complete run with budget `K`, each of the `K`
restarted passes writes the indices 0, 0, 1 and the last pass, of 500 executions of the
body, writes 0, 0, 1, ..., 499. -/
theorem C13_snapshot_indices (lib : Lib) (K fuel : Nat) (hK : K < 2 ^ 32)
    (hfuel : 2 * K + 500 ≤ fuel) :
    (∃ b1, run lib K fuel = some b1
      ∧ snapshot_indices b1.trace = restarted_passes K ++ 0 :: List.range 500)
    ∧ (∀ b : Burger,
        snapshot_indices (start_time_iteration lib b).trace = snapshot_indices b.trace ++ [0])
    ∧ (∀ b : Burger,
        snapshot_indices (loop_body lib K (start_time_iteration lib b)).state.trace
          = snapshot_indices b.trace ++ [0, 0])
    ∧ (∀ b : Burger,
        snapshot_indices (loop_body lib K b).state.trace
          = snapshot_indices b.trace ++ [b.timestep_number])
    ∧ output_file_name 0 = "solution-000.vtk" := by
  refine ⟨?_, snapshot_indices_start lib, ?_, snapshot_indices_loop_body lib K, by decide⟩
  · obtain ⟨extra, rfl⟩ := Nat.exists_eq_add_of_le hfuel
    obtain ⟨hp, hdt, ht, hts⟩ := run_head_facts lib
    obtain ⟨b1, hb1, hpre, _⟩ := time_loop_terminates lib K hK K (run_head lib)
      (by rw [hp]; omega) hdt ht hts extra
    have hinv := time_loop_invariant_live lib K (SnapshotInv K) (snapshotInv_step lib K hK)
      _ _ b1 (by rw [ht]; decide!) (run_head_snapshotInv lib K) hb1
    obtain ⟨⟨_, hle, h2, _, h4⟩, hnot⟩ := hinv
    have hts1 : b1.timestep_number = 500 := by
      by_contra hne
      exact hnot (by rw [h2]; exact time_after_le _ (by omega))
    refine ⟨b1, by rw [run_eq]; exact hb1, ?_⟩
    rw [h4, hpre, hts1]
  · intro b
    rw [snapshot_indices_loop_body, snapshot_indices_start]
    simp

/-- Witness of C13 for the budget 4 of the source. -/
theorem C13_snapshot_indices_witness :
    (4 < 2 ^ 32 ∧ 2 * 4 + 500 ≤ 508)
    ∧ (∃ b1, run zero_lib 4 508 = some b1
      ∧ snapshot_indices b1.trace = restarted_passes 4 ++ 0 :: List.range 500) :=
  ⟨⟨by norm_num, by norm_num⟩,
    (C13_snapshot_indices zero_lib 4 508 (by norm_num) (by norm_num)).1⟩

end BurgersEquation
